import Mathlib

/-!
docker-volume-unionmount: volume registry and mount lifecycle.

A shallow embedding of `driver.go` (and the start-up path of `main.go`).

* Go maps are association lists with first-match lookup; the flag
  `nilVolumes` tells the nil map, which a decoded driver may hold, from the
  empty map that `make` gives. Reading a nil map is like reading an empty
  one, assigning into it panics.
* Go's `uint` is a natural number; `++` and `--` reduce modulo `uintSize`.
* The host (file system, external processes) is an oracle `OS` handed to
  every call, so each call may see different outcomes.
* Every operation returns its response, the registry afterwards and the
  trace of the locking, file-system and process events it performed, in
  program order.
-/

namespace UnionMount

/-! ## Go runtime and standard library -/

/-- Number of values of Go's `uint` (64-bit platform). -/
def uintSize : Nat := 2 ^ 64

/-- The statement `x++` on a `uint`. -/
def uintInc (n : Nat) : Nat := (n + 1) % uintSize

/-- The statement `x--` on a `uint`. -/
def uintDec (n : Nat) : Nat := (n + uintSize - 1) % uintSize

/-- Lookup `m[k]` in a Go map (the `ok` form: `none` when the key is absent). -/
def goMapGet {β : Type} : List (String × β) → String → Option β
  | [], _ => none
  | (k', v) :: rest, k => if k' = k then some v else goMapGet rest k

/-- Assignment `m[k] = v` in a Go map. -/
def goMapSet {β : Type} : List (String × β) → String → β → List (String × β)
  | [], k, v => [(k, v)]
  | (k', v') :: rest, k, v =>
    if k' = k then (k, v) :: rest else (k', v') :: goMapSet rest k v

/-- The builtin `delete(m, k)` on a Go map. -/
def goMapDelete {β : Type} (m : List (String × β)) (k : String) : List (String × β) :=
  m.filter (fun p => decide (p.1 ≠ k))

/-- Splitting of a character sequence at every occurrence of `sep`. -/
def splitChars (sep : Char) : List Char → List (List Char)
  | [] => [[]]
  | c :: cs =>
    if c = sep then [] :: splitChars sep cs
    else
      match splitChars sep cs with
      | [] => [[c]]
      | w :: ws => (c :: w) :: ws

/-- Go's `strings.Split(s, sep)` for a one-character separator. -/
def stringsSplit (s : String) (sep : Char) : List String :=
  (splitChars sep s.data).map String.mk

/-- Go's `strings.Join(elems, sep)`. -/
def stringsJoin : List String → String → String
  | [], _ => ""
  | [a], _ => a
  | a :: b :: rest, sep => a ++ sep ++ stringsJoin (b :: rest) sep

/-- Go's `unicode.ToLower` as far as ASCII results are concerned: besides
`A`..`Z`, the only runes whose lower case is an ASCII letter are U+212A
(Kelvin sign, to `k`) and U+0130 (dotted capital I, to `i`). Other non-ASCII
runes are left as they are; their real lower case is never ASCII either. -/
def unicodeToLower (c : Char) : Char :=
  if c.toNat = 0x212A then 'k'
  else if c.toNat = 0x0130 then 'i'
  else if 65 ≤ c.toNat ∧ c.toNat ≤ 90 then Char.ofNat (c.toNat + 32)
  else c

/-- Go's `strings.ToLower`. -/
def stringsToLower (s : String) : String :=
  String.mk (s.data.map unicodeToLower)

/-- Go's `filepath.IsAbs` on Unix: the path starts with a slash. -/
def filepathIsAbs (path : String) : Bool :=
  match path.data with
  | c :: _ => decide (c = '/')
  | [] => false

/-- One pass of `filepath.Clean` over the path elements: empty and `.`
elements are dropped, `..` removes the element before it when there is one
to remove, is dropped at the root and is kept otherwise. The stack holds
the kept elements, last one first. -/
def cleanElems (rooted : Bool) : List String → List String → List String
  | stack, [] => stack.reverse
  | stack, e :: es =>
    if e = "" ∨ e = "." then cleanElems rooted stack es
    else if e = ".." then
      match stack with
      | [] => if rooted then cleanElems rooted [] es else cleanElems rooted [".."] es
      | top :: below =>
        if top = ".." then cleanElems rooted (".." :: top :: below) es
        else cleanElems rooted below es
    else cleanElems rooted (e :: stack) es

/-- Go's `filepath.Clean` on Unix. -/
def filepathClean (path : String) : String :=
  if path = "" then "."
  else
    let rooted := filepathIsAbs path
    let body := stringsJoin (cleanElems rooted [] (stringsSplit path '/')) "/"
    if rooted then "/" ++ body
    else if body = "" then "." else body

/-- Go's `filepath.Join` on Unix: leading empty elements are skipped, the
rest is joined with slashes and cleaned; all empty gives the empty string. -/
def filepathJoin : List String → String
  | [] => ""
  | e :: es => if e = "" then filepathJoin es else filepathClean (stringsJoin (e :: es) "/")

/-! ## Host oracle and event traces -/

/-- Outcomes of the host calls made during one operation. An `error` is its
message; `none` is the nil error. -/
structure OS where
  /-- Whether `os.IsNotExist(err)` holds for the `err` of `os.Stat(path)`. -/
  statNotExist : String → Bool
  /-- Outcome of `os.MkdirAll(path, 0755)`. -/
  mkdirAll : String → Option String
  /-- Outcome of `os.RemoveAll(path)`. -/
  removeAll : String → Option String
  /-- Outcome of `exec.Command("sh", "-c", cmd).Run()`. -/
  run : String → Option String

/-- What an operation does besides computing, in program order. Events on a
volume carry the registry key it was looked up under. -/
inductive Event where
  | lockDriver
  | unlockDriver
  | lockVolume (name : String)
  | unlockVolume (name : String)
  | stat (path : String)
  | mkdirAll (path : String)
  | removeAll (path : String)
  | execMount (name : String) (cmd : String) (err : Option String)
  | execUmount (name : String) (cmd : String) (err : Option String)
  | incRefCount (name : String)
  | decRefCount (name : String)
  | goSaveState
  deriving DecidableEq, Repr

/-! ## Plugin protocol types (`go-plugins-helpers/volume`) -/

structure volume.Request where
  Name : String
  Options : List (String × String)
  deriving DecidableEq, Repr

structure volume.MountRequest where
  Name : String
  ID : String
  deriving DecidableEq, Repr

structure volume.UnmountRequest where
  Name : String
  ID : String
  deriving DecidableEq, Repr

structure volume.Volume where
  Name : String
  Mountpoint : String
  deriving DecidableEq, Repr

structure volume.Capability where
  Scope : String
  deriving DecidableEq, Repr

structure volume.Response where
  Mountpoint : String
  Err : String
  Volumes : List volume.Volume
  Volume : Option volume.Volume
  Capabilities : volume.Capability
  deriving DecidableEq, Repr

/-- The zero value `volume.Response{}`. -/
def emptyResponse : volume.Response := ⟨"", "", [], none, ⟨""⟩⟩

/-- The literal `volume.Response{Err: msg}`. -/
def errResponse (msg : String) : volume.Response := ⟨"", msg, [], none, ⟨""⟩⟩

/-- The literal `volume.Response{Mountpoint: mp}`. -/
def mountpointResponse (mp : String) : volume.Response := ⟨mp, "", [], none, ⟨""⟩⟩

/-! ## driver.go -/

def fsAUFS : Int := 0

def fsOverlay : Int := 1

structure unionMountVolume where
  Filesystem : Int
  Layers : List String
  MountPoint : String
  RefCount : Nat
  deriving DecidableEq, Repr

/-- The driver. `nilVolumes` is set when the field `Volumes` is the nil map;
a nil map has no entries. -/
structure unionMountDriver where
  RootDir : String
  DefaultFS : Int
  Volumes : List (String × unionMountVolume)
  nilVolumes : Bool
  deriving DecidableEq, Repr

def newUnionMountDriver (rootDir : String) (defaultFS : Int) : unionMountDriver :=
  ⟨rootDir, defaultFS, [], false⟩

def unionMountDriver.mountPoint (d : unionMountDriver) (volName : String) : String :=
  filepathJoin [d.RootDir, "volumes", volName]

/-- Result `(int, error)` of `fsFromString`. -/
def fsFromString (fs : String) : Int × Option String :=
  let lower := stringsToLower fs
  if lower = "aufs" then (fsAUFS, none)
  else if lower = "overlay" ∨ lower = "overlayfs" then (fsOverlay, none)
  else (fsAUFS, some "unsupported filesystem")

/-- Result `(string, error)` of `mountCmd`; `none` is the run-time panic of
`v.Layers[0]` on an empty layer list. -/
def mountCmd (v : unionMountVolume) : Option (String × Option String) :=
  if v.Filesystem = fsAUFS then
    some ("mount -t aufs -o br=" ++ v.MountPoint ++ ":" ++ stringsJoin v.Layers ":"
            ++ " none " ++ v.MountPoint, none)
  else if v.Filesystem = fsOverlay then
    match v.Layers with
    | [] => none
    | l0 :: _ =>
      some ("mount -t overlay overlay -o lowerdir=" ++ l0 ++ ",upperdir=" ++ v.MountPoint
              ++ " " ++ v.MountPoint, none)
  else some ("", some "undefined or unsupported filesystem")

/-- What one call of a lifecycle operation yields: the response, the
registry afterwards and the events performed. `panicked` is set when the
handler ends in a run-time panic instead of returning (no response). -/
structure Outcome where
  resp : volume.Response
  driver : unionMountDriver
  events : List Event
  panicked : Bool

/-- The loop body of `Create` over the layers: per path, first the
`filepath.IsAbs` test, then the `os.Stat` test, returning at the first
failure. Gives the error message (if any) and the `stat` calls made. -/
def checkLayers (os : OS) : List String → Option String × List Event
  | [] => (none, [])
  | path :: rest =>
    if filepathIsAbs path = false then
      (some ("layer path \"" ++ path ++ "\" is not relative"), [])
    else if os.statNotExist path = true then
      (some ("layer path \"" ++ path ++ "\" does not exist"), [Event.stat path])
    else
      ((checkLayers os rest).1, Event.stat path :: (checkLayers os rest).2)

/-- The part of `Create` from the Overlay layer-count check on, with the
layers and the filesystem kind settled and `pre` the events so far. The
assignment `d.Volumes[r.Name] = ...` panics when the map is nil; the deferred
unlock still runs. -/
def createWithFilesystem (d : unionMountDriver) (r : volume.Request) (os : OS)
    (layers : List String) (filesystem : Int) (pre : List Event) : Outcome :=
  if filesystem = fsOverlay ∧ layers.length > 1 then
    ⟨errResponse "multiple layers with the overlay filesystem is not implemented", d,
      pre ++ [Event.unlockDriver], false⟩
  else
    match os.mkdirAll (d.mountPoint r.Name) with
    | some err =>
      ⟨errResponse err, d,
        pre ++ [Event.mkdirAll (d.mountPoint r.Name), Event.unlockDriver], false⟩
    | none =>
      match goMapGet d.Volumes r.Name with
      | some _ =>
        ⟨errResponse ("volume \"" ++ r.Name ++ "\" already exists"), d,
          pre ++ [Event.mkdirAll (d.mountPoint r.Name), Event.unlockDriver], false⟩
      | none =>
        if d.nilVolumes = true then
          ⟨emptyResponse, d,
            pre ++ [Event.mkdirAll (d.mountPoint r.Name), Event.unlockDriver], true⟩
        else
          ⟨emptyResponse,
            { d with Volumes :=
                goMapSet d.Volumes r.Name ⟨filesystem, layers, d.mountPoint r.Name, 0⟩ },
            pre ++ [Event.mkdirAll (d.mountPoint r.Name), Event.goSaveState,
              Event.unlockDriver], false⟩

/-- The part of `Create` from "Try to read the filesystem option" on. -/
def createWithLayers (d : unionMountDriver) (r : volume.Request) (os : OS)
    (layers : List String) (pre : List Event) : Outcome :=
  match goMapGet r.Options "filesystem" with
  | some str =>
    match fsFromString str with
    | (fs, none) => createWithFilesystem d r os layers fs pre
    | (_, some err) => ⟨errResponse err, d, pre ++ [Event.unlockDriver], false⟩
  | none => createWithFilesystem d r os layers d.DefaultFS pre

def unionMountDriver.Create (d : unionMountDriver) (r : volume.Request) (os : OS) : Outcome :=
  match goMapGet r.Options "layers" with
  | some str =>
    if str.length > 0 then
      match checkLayers os (stringsSplit str ':') with
      | (some err, evs) =>
        ⟨errResponse err, d, Event.lockDriver :: evs ++ [Event.unlockDriver], false⟩
      | (none, evs) => createWithLayers d r os (stringsSplit str ':') (Event.lockDriver :: evs)
    else ⟨errResponse "no layers defined", d, [Event.lockDriver, Event.unlockDriver], false⟩
  | none => ⟨errResponse "no layers defined", d, [Event.lockDriver, Event.unlockDriver], false⟩

def unionMountDriver.Remove (d : unionMountDriver) (r : volume.Request) (os : OS) : Outcome :=
  match goMapGet d.Volumes r.Name with
  | none =>
    ⟨errResponse ("volume (" ++ r.Name ++ ") does not exist"), d,
      [Event.lockDriver, Event.unlockDriver], false⟩
  | some vol =>
    if vol.RefCount = 0 then
      match os.removeAll vol.MountPoint with
      | some _ =>
        ⟨errResponse ("error removing volume path \x27" ++ vol.MountPoint ++ "\x27"), d,
          [Event.lockDriver, Event.lockVolume r.Name, Event.removeAll vol.MountPoint,
            Event.unlockVolume r.Name, Event.unlockDriver], false⟩
      | none =>
        ⟨emptyResponse, { d with Volumes := goMapDelete d.Volumes r.Name },
          [Event.lockDriver, Event.lockVolume r.Name, Event.removeAll vol.MountPoint,
            Event.goSaveState, Event.unlockVolume r.Name, Event.unlockDriver], false⟩
    else
      ⟨emptyResponse, d,
        [Event.lockDriver, Event.lockVolume r.Name, Event.goSaveState,
          Event.unlockVolume r.Name, Event.unlockDriver], false⟩

/-- The tail of `Mount` from `vol.RefCount++` on; `pre` is the events so far. -/
def mountIncrement (d : unionMountDriver) (name : String) (vol : unionMountVolume)
    (pre : List Event) : Outcome :=
  ⟨mountpointResponse vol.MountPoint,
    { d with Volumes := goMapSet d.Volumes name { vol with RefCount := uintInc vol.RefCount } },
    pre ++ [Event.incRefCount name, Event.unlockVolume name], false⟩

def unionMountDriver.Mount (d : unionMountDriver) (r : volume.MountRequest) (os : OS) : Outcome :=
  match goMapGet d.Volumes r.Name with
  | none =>
    ⟨errResponse ("volume (" ++ r.Name ++ ") does not exist"), d,
      [Event.lockDriver, Event.unlockDriver], false⟩
  | some vol =>
    if vol.RefCount = 0 then
      match mountCmd vol with
      | none =>
        ⟨emptyResponse, d,
          [Event.lockDriver, Event.unlockDriver, Event.lockVolume r.Name,
            Event.unlockVolume r.Name], true⟩
      | some (cmd, _) =>
        match os.run cmd with
        | some err =>
          ⟨errResponse err, d,
            [Event.lockDriver, Event.unlockDriver, Event.lockVolume r.Name,
              Event.execMount r.Name cmd (some err), Event.unlockVolume r.Name], false⟩
        | none =>
          mountIncrement d r.Name vol
            [Event.lockDriver, Event.unlockDriver, Event.lockVolume r.Name,
              Event.execMount r.Name cmd none]
    else
      mountIncrement d r.Name vol
        [Event.lockDriver, Event.unlockDriver, Event.lockVolume r.Name]

def unionMountDriver.Path (d : unionMountDriver) (r : volume.Request) : Outcome :=
  match goMapGet d.Volumes r.Name with
  | none =>
    ⟨errResponse ("volume (" ++ r.Name ++ ") does not exist"), d,
      [Event.lockDriver, Event.unlockDriver], false⟩
  | some vol =>
    ⟨mountpointResponse vol.MountPoint, d, [Event.lockDriver, Event.unlockDriver], false⟩

/-- The tail of `Unmount` from `vol.RefCount--` on; `pre` is the events so far. -/
def unmountDecrement (d : unionMountDriver) (name : String) (vol : unionMountVolume)
    (pre : List Event) : Outcome :=
  ⟨emptyResponse,
    { d with Volumes := goMapSet d.Volumes name { vol with RefCount := uintDec vol.RefCount } },
    pre ++ [Event.decRefCount name, Event.unlockVolume name], false⟩

def unionMountDriver.Unmount (d : unionMountDriver) (r : volume.UnmountRequest) (os : OS) :
    Outcome :=
  match goMapGet d.Volumes r.Name with
  | none =>
    ⟨errResponse ("volume (" ++ r.Name ++ ") does not exist"), d,
      [Event.lockDriver, Event.unlockDriver], false⟩
  | some vol =>
    if vol.RefCount = 1 then
      unmountDecrement d r.Name vol
        [Event.lockDriver, Event.unlockDriver, Event.lockVolume r.Name,
          Event.execUmount r.Name ("umount -f " ++ vol.MountPoint)
            (os.run ("umount -f " ++ vol.MountPoint))]
    else if vol.RefCount = 0 then
      ⟨errResponse ("volume (" ++ r.Name ++ ") is not mounted"), d,
        [Event.lockDriver, Event.unlockDriver, Event.lockVolume r.Name,
          Event.unlockVolume r.Name], false⟩
    else
      unmountDecrement d r.Name vol
        [Event.lockDriver, Event.unlockDriver, Event.lockVolume r.Name]

def unionMountDriver.Get (d : unionMountDriver) (r : volume.Request) : Outcome :=
  match goMapGet d.Volumes r.Name with
  | none =>
    ⟨errResponse ("volume (" ++ r.Name ++ ") does not exist"), d,
      [Event.lockDriver, Event.unlockDriver], false⟩
  | some vol =>
    ⟨⟨"", "", [], some ⟨r.Name, vol.MountPoint⟩, ⟨""⟩⟩, d,
      [Event.lockDriver, Event.unlockDriver], false⟩

/-- The volumes are listed in the order of the association list; Go ranges
over a map in an unspecified order. -/
def unionMountDriver.List (d : unionMountDriver) (_r : volume.Request) : Outcome :=
  ⟨⟨"", "", d.Volumes.map (fun p => ⟨p.1, p.2.MountPoint⟩), none, ⟨""⟩⟩, d,
    [Event.lockDriver, Event.unlockDriver], false⟩

def unionMountDriver.Capabilities (d : unionMountDriver) (_r : volume.Request) : Outcome :=
  ⟨⟨"", "", [], none, ⟨"local"⟩⟩, d, [], false⟩

/-! ## Sequences of calls -/

/-- One request to the driver. -/
inductive Op where
  | Create (r : volume.Request)
  | Remove (r : volume.Request)
  | Mount (r : volume.MountRequest)
  | Unmount (r : volume.UnmountRequest)
  | Path (r : volume.Request)
  | Get (r : volume.Request)
  | List (r : volume.Request)
  | Capabilities (r : volume.Request)
  deriving DecidableEq, Repr

/-- Serving one request under the host outcomes `os`. -/
def step (d : unionMountDriver) (op : Op) (os : OS) : Outcome :=
  match op with
  | Op.Create r => d.Create r os
  | Op.Remove r => d.Remove r os
  | Op.Mount r => d.Mount r os
  | Op.Unmount r => d.Unmount r os
  | Op.Path r => d.Path r
  | Op.Get r => d.Get r
  | Op.List r => d.List r
  | Op.Capabilities r => d.Capabilities r

/-- Serving a sequence of requests one after the other, each under its own
host outcomes: the registry at the end and all events in order. -/
def runOps (d : unionMountDriver) : List (Op × OS) → unionMountDriver × List Event
  | [] => (d, [])
  | (op, os) :: rest =>
    ((runOps (step d op os).driver rest).1,
      (step d op os).events ++ (runOps (step d op os).driver rest).2)

/-- Number of `vol.RefCount++` statements executed on `name`. -/
def countInc (name : String) (evs : List Event) : Nat :=
  evs.count (Event.incRefCount name)

/-- Number of `vol.RefCount--` statements executed on `name`. -/
def countDec (name : String) (evs : List Event) : Nat :=
  evs.count (Event.decRefCount name)

/-- Whether the event is a mount command of `name` that ran without error. -/
def isMountOk (name : String) : Event → Bool
  | Event.execMount n _ none => decide (n = name)
  | _ => false

/-- Whether the event is an unmount command issued for `name`. -/
def isUmount (name : String) : Event → Bool
  | Event.execUmount n _ _ => decide (n = name)
  | _ => false

/-- Whether the event is an external process execution. -/
def isExec : Event → Bool
  | Event.execMount _ _ _ => true
  | Event.execUmount _ _ _ => true
  | _ => false

/-- Whether the event is a directory creation. -/
def isMkdirAll : Event → Bool
  | Event.mkdirAll _ => true
  | _ => false

/-! ## Notions of the specification -/

/-- Whether two characters are equal or are the upper-case and lower-case
form of one ASCII letter. -/
def sameIgnoringCase (c d : Char) : Bool :=
  decide (c = d) ||
  (decide (65 ≤ c.toNat ∧ c.toNat ≤ 90) && decide (d.toNat = c.toNat + 32)) ||
  (decide (65 ≤ d.toNat ∧ d.toNat ≤ 90) && decide (c.toNat = d.toNat + 32))

/-- Character sequences of the same length that agree position by position
up to letter case. -/
def equalIgnoringCaseChars : List Char → List Char → Bool
  | [], [] => true
  | c :: cs, d :: ds => sameIgnoringCase c d && equalIgnoringCaseChars cs ds
  | _, _ => false

/-- The token `s` equals `t` ignoring letter case. -/
def equalIgnoringCase (s t : String) : Bool :=
  equalIgnoringCaseChars s.data t.data

/-- Lower-case ASCII letters other than `i` and `k`. -/
def plainLower (t : Char) : Prop :=
  97 ≤ t.toNat ∧ t.toNat ≤ 122 ∧ t.toNat ≠ 105 ∧ t.toNat ≠ 107

instance (t : Char) : Decidable (plainLower t) := by
  unfold plainLower; infer_instance

/-- Whether the request is a Mount or an Unmount of the volume `name`. -/
def isMountOrUnmountOf (name : String) : Op → Bool
  | Op.Mount r => decide (r.Name = name)
  | Op.Unmount r => decide (r.Name = name)
  | _ => false

/-- The reference count as an integer without wrap-around: the count at the
start plus the increments executed minus the decrements executed. -/
def idealCount (start : Nat) (name : String) (evs : List Event) : Int :=
  (start : Int) + (countInc name evs : Int) - (countDec name evs : Int)

/-- Number of unmount commands issued for `name`. -/
def countUmount (name : String) (evs : List Event) : Nat :=
  evs.countP (isUmount name)

/-- Number of mount commands of `name` that ran without error. -/
def countMountOk (name : String) (evs : List Event) : Nat :=
  evs.countP (isMountOk name)

/-- The outcome leaves the registry `d` as it is, or adds to it a volume
with reference count 0 under the name `name`, which was not registered. -/
def unchangedOrAdded (d : unionMountDriver) (name : String) (o : Outcome) : Prop :=
  o.driver = d ∨
  (goMapGet d.Volumes name = none ∧ o.resp = emptyResponse ∧
    ∃ fs layers, o.driver =
      { d with Volumes := goMapSet d.Volumes name ⟨fs, layers, d.mountPoint name, 0⟩ })

/-- Host in which every path exists and every call succeeds. -/
def okOS : OS := ⟨fun _ => false, fun _ => none, fun _ => none, fun _ => none⟩

/-- Host in which every path exists and every call fails with `failed`. -/
def failingOS : OS :=
  ⟨fun _ => false, fun _ => some "failed", fun _ => some "failed", fun _ => some "failed"⟩

/-- A registry under `/r` holding the AUFS volume `v1` over `/a` and `/b`
with the given reference count. -/
def sampleDriver (refCount : Nat) : unionMountDriver :=
  ⟨"/r", fsAUFS, [("v1", ⟨fsAUFS, ["/a", "/b"], "/r/volumes/v1", refCount⟩)], false⟩

/-- The volume `name`, where registered with a non-zero count, is covered by
`c` mounts not yet unmounted. -/
def mountedCovered (d : unionMountDriver) (name : String) (c : Nat) : Prop :=
  ∀ vol, goMapGet d.Volumes name = some vol → vol.RefCount ≠ 0 → 1 ≤ c

/-- A Mount of `v1`, then two Unmounts of it, the last one on a host where
every call fails. -/
def sampleMountUnmounts : List (Op × OS) :=
  [(Op.Mount ⟨"v1", ""⟩, okOS), (Op.Unmount ⟨"v1", ""⟩, okOS),
    (Op.Unmount ⟨"v1", ""⟩, failingOS)]

/-- A registry under `/r` holding the Overlay volume `v0` with no layers and
reference count 0, as a state file may provide it. -/
def emptyOverlayDriver : unionMountDriver :=
  ⟨"/r", fsOverlay, [("v0", ⟨fsOverlay, [], "/r/volumes/v0", 0⟩)], false⟩

/-- The error of the first check that fails, the checks taken in order. -/
def firstError : List (Option String) → Option String
  | [] => none
  | some e :: _ => some e
  | none :: rest => firstError rest

/-- The layers a request asks for: its `layers` option split on `:`. -/
def requestedLayers (r : volume.Request) : List String :=
  match goMapGet r.Options "layers" with
  | some str => stringsSplit str ':'
  | none => []

/-- The filesystem kind a request asks for: its `filesystem` option as
resolved by `fsFromString`, else the default kind of the driver. -/
def resolvedKind (d : unionMountDriver) (r : volume.Request) : Int :=
  match goMapGet r.Options "filesystem" with
  | some tok => (fsFromString tok).1
  | none => d.DefaultFS

/-- Check 1: the `layers` option is present and not empty. -/
def layersOptionError (r : volume.Request) : Option String :=
  match goMapGet r.Options "layers" with
  | some str => if str = "" then some "no layers defined" else none
  | none => some "no layers defined"

/-- Check 2 on one layer: the path is absolute. -/
def relativeError (path : String) : Option String :=
  if filepathIsAbs path = false then some ("layer path \"" ++ path ++ "\" is not relative")
  else none

/-- Check 3 on one layer: the path exists on the host. -/
def missingError (os : OS) (path : String) : Option String :=
  if os.statNotExist path = true then some ("layer path \"" ++ path ++ "\" does not exist")
  else none

/-- Check 4: a given `filesystem` option resolves. -/
def filesystemOptionError (r : volume.Request) : Option String :=
  match goMapGet r.Options "filesystem" with
  | some tok => (fsFromString tok).2
  | none => none

/-- Check 5: an Overlay kind has at most one layer. -/
def overlayLayersError (d : unionMountDriver) (r : volume.Request) : Option String :=
  if resolvedKind d r = fsOverlay ∧ (requestedLayers r).length > 1 then
    some "multiple layers with the overlay filesystem is not implemented"
  else none

/-- The validation order as claimed: check 2 on every layer, then check 3 on
every layer. -/
def claimedValidationError (d : unionMountDriver) (r : volume.Request) (os : OS) :
    Option String :=
  firstError [layersOptionError r,
    firstError ((requestedLayers r).map relativeError),
    firstError ((requestedLayers r).map (missingError os)),
    filesystemOptionError r,
    overlayLayersError d r]

/-- The validation order layer by layer: for each layer in list order,
check 2 and then check 3 on it. -/
def validationError (d : unionMountDriver) (r : volume.Request) (os : OS) : Option String :=
  firstError [layersOptionError r,
    firstError ((requestedLayers r).map (fun p => firstError [relativeError p, missingError os p])),
    filesystemOptionError r,
    overlayLayersError d r]

/-- The request fails one of the validation checks: missing or empty layers,
a relative layer path, a nonexistent layer path, an unsupported filesystem
token, more than one layer for Overlay. -/
def failsValidation (d : unionMountDriver) (r : volume.Request) (os : OS) : Bool :=
  (layersOptionError r).isSome
  || (requestedLayers r).any (fun p => !filepathIsAbs p)
  || (requestedLayers r).any (fun p => os.statNotExist p)
  || (filesystemOptionError r).isSome
  || decide (resolvedKind d r = fsOverlay ∧ (requestedLayers r).length > 1)

/-- Host in which everything succeeds and only the path `/missing` does not
exist. -/
def missingOS : OS :=
  ⟨fun p => decide (p = "/missing"), fun _ => none, fun _ => none, fun _ => none⟩

/-- The summary of a `Create` outcome with respect to validation. -/
def validationOutcome (d : unionMountDriver) (r : volume.Request) (os : OS) (o : Outcome) :
    Prop :=
  (∀ e, validationError d r os = some e →
    o.resp = errResponse e ∧ o.driver = d ∧ o.events.countP isMkdirAll = 0) ∧
  (validationError d r os = none →
    ¬ (resolvedKind d r = fsOverlay ∧ (requestedLayers r).length > 1) ∧
    ∃ evs, evs.countP isMkdirAll = 0 ∧
      o = createWithFilesystem d r os (requestedLayers r) (resolvedKind d r)
        (Event.lockDriver :: evs))

/-- Whether the event is a call into the file system. -/
def isFilesystemCall : Event → Bool
  | Event.stat _ => true
  | Event.mkdirAll _ => true
  | Event.removeAll _ => true
  | _ => false

/-- The events of a trace that happen while the registry-wide lock is held:
those after a `lockDriver` and before the next `unlockDriver`. `held` tells
whether the lock is held at the start of the trace. -/
def underDriverLock : Bool → List Event → List Event
  | _, [] => []
  | held, e :: rest =>
    if e = Event.lockDriver then underDriverLock true rest
    else if e = Event.unlockDriver then underDriverLock false rest
    else if held = true then e :: underDriverLock held rest
    else underDriverLock held rest

/-- The trace takes the registry lock first, releases it last and performs
`body` in between, which holds no lock or unlock of the registry and no
process execution. -/
def lockedThroughout (evs body : List Event) : Prop :=
  evs = Event.lockDriver :: body ++ [Event.unlockDriver] ∧
  ∀ e ∈ body, e ≠ Event.lockDriver ∧ e ≠ Event.unlockDriver ∧ isExec e = false

/-- The outcome leaves the registry `d` as it is, or changes only the
reference count of the volume registered under `name`. -/
def unchangedOrRecounted (d : unionMountDriver) (name : String) (o : Outcome) : Prop :=
  o.driver = d ∨
  ∃ vol c, goMapGet d.Volumes name = some vol ∧
    o.driver = { d with Volumes := goMapSet d.Volumes name { vol with RefCount := c } }

/-- Every registered Overlay-kind volume has exactly one layer. -/
def overlaySingleLayer (d : unionMountDriver) : Prop :=
  ∀ name v, goMapGet d.Volumes name = some v → v.Filesystem = fsOverlay → v.Layers.length = 1

/-- Every registered volume has the mount point derived from the root
directory and its name. -/
def mountPointsDerived (d : unionMountDriver) : Prop :=
  ∀ name v, goMapGet d.Volumes name = some v → v.MountPoint = d.mountPoint name

/-- Two Creates on a driver and host: `o1` with one layer and the Overlay
option, `v2` with two layers and no filesystem option. -/
def sampleCreates : List (Op × OS) :=
  [(Op.Create ⟨"o1", [("layers", "/a"), ("filesystem", "overlay")]⟩, okOS),
    (Op.Create ⟨"v2", [("layers", "/a:/b")]⟩, okOS)]

/-! ## main.go -/

/-- What opening and decoding the state file yields: `os.OpenFile` fails
(the file is missing, say), or `dec.Decode` fails, possibly after filling the
driver in part, or the driver is decoded. -/
inductive StateFile where
  | openError (err : String)
  | decodeError (filled : Option unionMountDriver)
  | decoded (d : unionMountDriver)

/-- Result `(d, error)` of `loadState`; the driver `none` is the nil
pointer. `readState` gives the content found at a path. -/
def loadState (rootDir : String) (readState : String → StateFile) :
    Option unionMountDriver × Option String :=
  match readState (filepathJoin [rootDir, "state.gob"]) with
  | StateFile.openError err => (none, some err)
  | StateFile.decodeError filled =>
    (filled, some ("failed to decode \x27" ++ filepathJoin [rootDir, "state.gob"] ++ "\x27"))
  | StateFile.decoded d => (some d, none)

/-- What `main` does up to the call of `ServeUnix`: the lines written to
standard error and the driver handed to `volume.NewHandler`. -/
structure Startup where
  stderr : List String
  served : Option unionMountDriver

/-- The function `main`, with the flag values `rootDir` and `defaultFS` as
set by `init`. -/
def main (rootDir defaultFS : String) (readState : String → StateFile) : Startup :=
  let warnFS : List String :=
    match (fsFromString defaultFS).2 with
    | some _ => ["error: unsupported driver (" ++ defaultFS ++ ")\n"]
    | none => []
  match loadState rootDir readState with
  | (_, some err) =>
    ⟨warnFS ++ ["warning: " ++ err ++ "\n"],
      some (newUnionMountDriver rootDir (fsFromString defaultFS).1)⟩
  | (d, none) => ⟨warnFS, d⟩

/-- A host without a state file. -/
def noStateFile : String → StateFile :=
  fun _ => StateFile.openError "no such file or directory"

/-- A host whose state file does not decode. -/
def corruptStateFile : String → StateFile :=
  fun _ => StateFile.decodeError none

/-- A driver as decoded from a state file that holds a root directory and a
default kind and no volume map: the field `Volumes` is the nil map. -/
def nilMapDriver : unionMountDriver := ⟨"/r", fsAUFS, [], true⟩

/-! ## Paths -/

/-- The stack `filepath.Clean` is left with after the path elements `es`,
started on `stack`; `cleanElems` is this stack read from the bottom. -/
def cleanStack (rooted : Bool) : List String → List String → List String
  | stack, [] => stack
  | stack, e :: es =>
    if e = "" ∨ e = "." then cleanStack rooted stack es
    else if e = ".." then
      match stack with
      | [] => if rooted then cleanStack rooted [] es else cleanStack rooted [".."] es
      | top :: below =>
        if top = ".." then cleanStack rooted (".." :: top :: below) es
        else cleanStack rooted below es
    else cleanStack rooted (e :: stack) es

/-- The path elements of a volume name that name something: all but the
empty ones and `.`. -/
def plainElems (name : String) : List String :=
  (stringsSplit name '/').filter (fun e => decide (¬ (e = "" ∨ e = ".")))

/-- Whether the path `p` lies strictly inside the directory `base`: it is
`base`, a slash and at least one more character. -/
def strictlyInside (base p : String) : Bool :=
  (base.data ++ ['/']).isPrefixOf p.data && decide (base.data.length + 1 < p.data.length)

end UnionMount

/-! ## Theorems -/

namespace UnionMount

/-! ### Characters, strings and maps -/

theorem toNat_ofNat_small (n : Nat) (h : n < 55296) : (Char.ofNat n).toNat = n := by
  have hv : n.isValidChar := Or.inl h
  simp only [Char.ofNat, hv, dite_true]
  simp [Char.ofNatAux, Char.toNat, UInt32.toNat]

theorem char_eq_iff_toNat (c d : Char) : c = d ↔ c.toNat = d.toNat := by
  constructor
  · intro h; rw [h]
  · intro h
    have := congrArg Char.ofNat h
    simpa using this

theorem unicodeToLower_eq_iff (c t : Char) (ht : plainLower t) :
    unicodeToLower c = t ↔ sameIgnoringCase c t = true := by
  obtain ⟨h1, h2, h3, h4⟩ := ht
  have hk : ('k' : Char).toNat = 107 := by decide
  have hi : ('i' : Char).toNat = 105 := by decide
  unfold unicodeToLower sameIgnoringCase
  simp only [Bool.or_eq_true, Bool.and_eq_true, decide_eq_true_eq]
  split_ifs with a b c'
  · rw [char_eq_iff_toNat, char_eq_iff_toNat c t, hk]; omega
  · rw [char_eq_iff_toNat, char_eq_iff_toNat c t, hi]; omega
  · rw [char_eq_iff_toNat, char_eq_iff_toNat c t, toNat_ofNat_small _ (by omega)]; omega
  · rw [char_eq_iff_toNat c t]; omega

theorem map_toLower_eq_iff (cs ts : List Char) (ht : ∀ t ∈ ts, plainLower t) :
    cs.map unicodeToLower = ts ↔ equalIgnoringCaseChars cs ts = true := by
  induction cs generalizing ts with
  | nil => cases ts <;> simp [equalIgnoringCaseChars]
  | cons c cs ih =>
    cases ts with
    | nil => simp [equalIgnoringCaseChars]
    | cons t ts =>
      simp only [List.map_cons, List.cons.injEq, equalIgnoringCaseChars, Bool.and_eq_true]
      rw [unicodeToLower_eq_iff c t (ht t (by simp)), ih ts (fun x hx => ht x (by simp [hx]))]

theorem stringsToLower_eq_iff (s t : String) (ht : ∀ c ∈ t.data, plainLower c) :
    stringsToLower s = t ↔ equalIgnoringCase s t = true := by
  unfold stringsToLower equalIgnoringCase
  rw [← map_toLower_eq_iff _ _ ht]
  constructor
  · intro h; rw [← h]
  · intro h; rw [h]

theorem plain_aufs : ∀ c ∈ "aufs".data, plainLower c := by decide

theorem plain_overlay : ∀ c ∈ "overlay".data, plainLower c := by decide

theorem plain_overlayfs : ∀ c ∈ "overlayfs".data, plainLower c := by decide

theorem goMapGet_goMapSet_same {β : Type} (m : List (String × β)) (k : String) (v : β) :
    goMapGet (goMapSet m k v) k = some v := by
  induction m with
  | nil => simp [goMapSet, goMapGet]
  | cons p rest ih =>
    obtain ⟨k', v'⟩ := p
    by_cases h : k' = k
    · simp [goMapSet, goMapGet, h]
    · simp [goMapSet, goMapGet, h, ih]

theorem goMapGet_goMapSet_other {β : Type} (m : List (String × β)) (k k2 : String) (v : β)
    (hne : k ≠ k2) : goMapGet (goMapSet m k v) k2 = goMapGet m k2 := by
  induction m with
  | nil => simp [goMapSet, goMapGet, hne]
  | cons p rest ih =>
    obtain ⟨k', v'⟩ := p
    by_cases h : k' = k
    · subst h
      simp [goMapSet, goMapGet, hne]
    · by_cases h2 : k' = k2
      · subst h2
        simp [goMapSet, goMapGet, h]
      · simp [goMapSet, goMapGet, h, h2, ih]

theorem goMapGet_goMapDelete_same {β : Type} (m : List (String × β)) (k : String) :
    goMapGet (goMapDelete m k) k = none := by
  induction m with
  | nil => simp [goMapDelete, goMapGet]
  | cons p rest ih =>
    obtain ⟨k', v'⟩ := p
    by_cases h : k' = k
    · simpa [goMapDelete, List.filter_cons, h] using ih
    · simpa [goMapDelete, List.filter_cons, h, goMapGet] using ih

theorem goMapGet_goMapDelete_other {β : Type} (m : List (String × β)) (k k2 : String)
    (hne : k ≠ k2) : goMapGet (goMapDelete m k) k2 = goMapGet m k2 := by
  induction m with
  | nil => simp [goMapDelete, goMapGet]
  | cons p rest ih =>
    obtain ⟨k', v'⟩ := p
    by_cases h : k' = k
    · subst h
      simpa [goMapDelete, List.filter_cons, goMapGet, hne] using ih
    · by_cases h2 : k' = k2
      · subst h2
        simp [goMapDelete, List.filter_cons, goMapGet, h]
      · simpa [goMapDelete, List.filter_cons, goMapGet, h, h2] using ih

/-! ### Mount command builder and filesystem selector -/

/-- C5 fails as stated: for an Overlay-kind volume with the two layers `/a`
and `/b`, `mountCmd` returns a command and the nil error, not an
unsupported-layer-count error. -/
theorem C5_counterexample :
    (⟨fsOverlay, ["/a", "/b"], "/m", 0⟩ : unionMountVolume).Filesystem = fsOverlay ∧
    1 < (⟨fsOverlay, ["/a", "/b"], "/m", 0⟩ : unionMountVolume).Layers.length ∧
    mountCmd ⟨fsOverlay, ["/a", "/b"], "/m", 0⟩ =
      some ("mount -t overlay overlay -o lowerdir=/a,upperdir=/m /m", none) := by
  decide

/-- C5 (amended): given an Overlay-kind volume with at least one layer,
`mountCmd` returns the nil error and a command with lowerdir equal to the
first layer and upperdir equal to the mount point, whatever layers follow the
first one. -/
theorem C5_mountCmd_overlay (v : unionMountVolume) (l : String) (ls : List String)
    (hfs : v.Filesystem = fsOverlay) (hl : v.Layers = l :: ls) :
    mountCmd v = some ("mount -t overlay overlay -o lowerdir=" ++ l ++ ",upperdir="
      ++ v.MountPoint ++ " " ++ v.MountPoint, none) ∧
    mountCmd v = mountCmd { v with Layers := [l] } := by
  simp [mountCmd, hfs, hl, fsOverlay, fsAUFS]

/-- Witness of `C5_mountCmd_overlay` on a volume with the single layer `/a`. -/
theorem C5_mountCmd_overlay_witness :
    (⟨fsOverlay, ["/a"], "/m", 0⟩ : unionMountVolume).Filesystem = fsOverlay ∧
    (⟨fsOverlay, ["/a"], "/m", 0⟩ : unionMountVolume).Layers = ["/a"] ∧
    mountCmd ⟨fsOverlay, ["/a"], "/m", 0⟩ =
      some ("mount -t overlay overlay -o lowerdir=" ++ "/a" ++ ",upperdir="
        ++ "/m" ++ " " ++ "/m", none) :=
  ⟨rfl, rfl, (C5_mountCmd_overlay ⟨fsOverlay, ["/a"], "/m", 0⟩ "/a" [] rfl rfl).1⟩

/-- C6: for an AUFS-kind volume with a non-empty layer list, `mountCmd`
returns the nil error and the command whose branch list is the mount point
followed by all layers in their order, joined by `:`, and whose mount target
is the mount point. -/
theorem C6_mountCmd_aufs (v : unionMountVolume) (hfs : v.Filesystem = fsAUFS)
    (hl : v.Layers ≠ []) :
    mountCmd v = some ("mount -t aufs -o br=" ++ stringsJoin (v.MountPoint :: v.Layers) ":"
      ++ " none " ++ v.MountPoint, none) := by
  cases hL : v.Layers with
  | nil => exact absurd hL hl
  | cons l ls => simp [mountCmd, hfs, hL, stringsJoin, String.append_assoc]

/-- Witness of `C6_mountCmd_aufs`: mount point `M`, layers `/a`, `/b` give the
branch list `M:/a:/b`. -/
theorem C6_mountCmd_aufs_witness :
    (⟨fsAUFS, ["/a", "/b"], "M", 0⟩ : unionMountVolume).Filesystem = fsAUFS ∧
    (⟨fsAUFS, ["/a", "/b"], "M", 0⟩ : unionMountVolume).Layers ≠ [] ∧
    stringsJoin ["M", "/a", "/b"] ":" = "M:/a:/b" ∧
    mountCmd ⟨fsAUFS, ["/a", "/b"], "M", 0⟩ =
      some ("mount -t aufs -o br=" ++ stringsJoin ["M", "/a", "/b"] ":" ++ " none " ++ "M",
        none) :=
  ⟨rfl, by decide, by decide, C6_mountCmd_aufs ⟨fsAUFS, ["/a", "/b"], "M", 0⟩ rfl (by decide)⟩

/-- C7: `fsFromString` returns AUFS and the nil error exactly for the tokens
equal to `aufs` ignoring letter case, Overlay and the nil error exactly for
the tokens equal to `overlay` or `overlayfs` ignoring letter case, and the
unsupported-filesystem error exactly for every other token; the empty token
and a token with surrounding blanks are among the latter. -/
theorem C7_fsFromString (s : String) :
    (fsFromString s = (fsAUFS, none) ↔ equalIgnoringCase s "aufs" = true) ∧
    (fsFromString s = (fsOverlay, none) ↔
      (equalIgnoringCase s "overlay" = true ∨ equalIgnoringCase s "overlayfs" = true)) ∧
    (fsFromString s = (fsAUFS, some "unsupported filesystem") ↔
      ¬ (equalIgnoringCase s "aufs" = true ∨ equalIgnoringCase s "overlay" = true ∨
        equalIgnoringCase s "overlayfs" = true)) ∧
    fsFromString "" = (fsAUFS, some "unsupported filesystem") ∧
    fsFromString " aufs " = (fsAUFS, some "unsupported filesystem") := by
  rw [← stringsToLower_eq_iff s _ plain_aufs, ← stringsToLower_eq_iff s _ plain_overlay,
    ← stringsToLower_eq_iff s _ plain_overlayfs]
  refine ⟨?_, ?_, ?_, by decide, by decide⟩ <;> unfold fsFromString
  all_goals
    by_cases h1 : stringsToLower s = "aufs"
    · simp [h1, fsAUFS, fsOverlay]
    · by_cases h2 : stringsToLower s = "overlay"
      · simp [h2, fsAUFS, fsOverlay]
      · by_cases h3 : stringsToLower s = "overlayfs"
        · simp [h3, fsAUFS, fsOverlay]
        · simp [h1, h2, h3, fsAUFS, fsOverlay]

theorem uintDec_of_pos (n : Nat) (h1 : 1 ≤ n) (h2 : n < uintSize) : uintDec n = n - 1 := by
  unfold uintDec uintSize at *
  omega

theorem uintInc_of_lt (n : Nat) (h : n + 1 < uintSize) : uintInc n = n + 1 := by
  unfold uintInc uintSize at *
  omega

/-! ### Mount and Unmount transitions -/

/-- C2 fails as stated, at two inputs. With the reference count at the
largest `uint` value, Mount succeeds without running a command and the count
becomes 0, not one more than before. On an Overlay volume with no layers and
count 0, Mount panics in `mountCmd` before any command is executed. -/
theorem C2_counterexample :
    goMapGet (sampleDriver 18446744073709551615).Volumes "v1"
      = some ⟨fsAUFS, ["/a", "/b"], "/r/volumes/v1", 18446744073709551615⟩ ∧
    ((sampleDriver 18446744073709551615).Mount ⟨"v1", ""⟩ okOS).resp
      = mountpointResponse "/r/volumes/v1" ∧
    goMapGet ((sampleDriver 18446744073709551615).Mount ⟨"v1", ""⟩ okOS).driver.Volumes "v1"
      = some ⟨fsAUFS, ["/a", "/b"], "/r/volumes/v1", 0⟩ ∧
    goMapGet emptyOverlayDriver.Volumes "v0" = some ⟨fsOverlay, [], "/r/volumes/v0", 0⟩ ∧
    (emptyOverlayDriver.Mount ⟨"v0", ""⟩ okOS).panicked = true ∧
    (∀ e ∈ (emptyOverlayDriver.Mount ⟨"v0", ""⟩ okOS).events, isExec e = false) := by
  decide

/-- C2 (amended): on a registered volume whose mount command can be built
and whose reference count is below the largest `uint` value, Mount executes
an external command exactly when the count is 0, and that command is the one
built by `mountCmd`; if it is executed and fails, Mount returns its error and
the registry is unchanged; in every other case the count becomes one more
than before and the response is the stored mount point without error. -/
theorem C2_mount_transition (d : unionMountDriver) (r : volume.MountRequest) (os : OS)
    (vol : unionMountVolume) (cmd : String) (err : Option String)
    (hreg : goMapGet d.Volumes r.Name = some vol)
    (hcmd : mountCmd vol = some (cmd, err))
    (hw : vol.RefCount + 1 < uintSize) :
    ((∃ e ∈ (d.Mount r os).events, isExec e = true) ↔ vol.RefCount = 0) ∧
    (vol.RefCount = 0 → Event.execMount r.Name cmd (os.run cmd) ∈ (d.Mount r os).events) ∧
    (∀ msg, vol.RefCount = 0 → os.run cmd = some msg →
      (d.Mount r os).resp = errResponse msg ∧ (d.Mount r os).driver = d) ∧
    ((vol.RefCount = 0 → os.run cmd = none) →
      goMapGet (d.Mount r os).driver.Volumes r.Name =
        some { vol with RefCount := vol.RefCount + 1 } ∧
      (d.Mount r os).resp = mountpointResponse vol.MountPoint) := by
  have hinc := uintInc_of_lt vol.RefCount hw
  unfold unionMountDriver.Mount
  rw [hreg]
  by_cases h0 : vol.RefCount = 0
  · simp only [h0, if_true, hcmd]
    cases hrun : os.run cmd with
    | none => simp [mountIncrement, isExec, goMapGet_goMapSet_same, hinc, h0, uintInc, uintSize]
    | some msg => simp [isExec]
  · simp [h0, mountIncrement, isExec, goMapGet_goMapSet_same, hinc]

/-- Witness of `C2_mount_transition`: the first Mount of `v1` runs the AUFS
command; when the command fails the registry is unchanged. -/
theorem C2_mount_transition_witness :
    goMapGet (sampleDriver 0).Volumes "v1"
      = some ⟨fsAUFS, ["/a", "/b"], "/r/volumes/v1", 0⟩ ∧
    mountCmd ⟨fsAUFS, ["/a", "/b"], "/r/volumes/v1", 0⟩
      = some ("mount -t aufs -o br=/r/volumes/v1:/a:/b none /r/volumes/v1", none) ∧
    0 + 1 < uintSize ∧
    ((∃ e ∈ ((sampleDriver 0).Mount ⟨"v1", ""⟩ failingOS).events, isExec e = true) ↔
      (0 : Nat) = 0) ∧
    ((sampleDriver 0).Mount ⟨"v1", ""⟩ failingOS).resp = errResponse "failed" ∧
    ((sampleDriver 0).Mount ⟨"v1", ""⟩ failingOS).driver = sampleDriver 0 :=
  ⟨by decide, by decide, by decide,
    (C2_mount_transition (sampleDriver 0) ⟨"v1", ""⟩ failingOS
      ⟨fsAUFS, ["/a", "/b"], "/r/volumes/v1", 0⟩
      "mount -t aufs -o br=/r/volumes/v1:/a:/b none /r/volumes/v1" none
      (by decide) (by decide) (by decide)).1,
    (C2_mount_transition (sampleDriver 0) ⟨"v1", ""⟩ failingOS
      ⟨fsAUFS, ["/a", "/b"], "/r/volumes/v1", 0⟩
      "mount -t aufs -o br=/r/volumes/v1:/a:/b none /r/volumes/v1" none
      (by decide) (by decide) (by decide)).2.2.1 "failed" rfl rfl⟩

/-- C3: on a registered volume with reference count n at least 1, Unmount
executes an external command exactly when n is 1, and that command is the
forced unmount of the mount point; whatever the command reports, the count
becomes n - 1 and the empty (successful) response is returned; for n above 1
no external command is executed. -/
theorem C3_unmount_transition (d : unionMountDriver) (r : volume.UnmountRequest) (os : OS)
    (vol : unionMountVolume) (hreg : goMapGet d.Volumes r.Name = some vol)
    (hn : 1 ≤ vol.RefCount) (hw : vol.RefCount < uintSize) :
    ((∃ e ∈ (d.Unmount r os).events, isExec e = true) ↔ vol.RefCount = 1) ∧
    (vol.RefCount = 1 →
      Event.execUmount r.Name ("umount -f " ++ vol.MountPoint)
        (os.run ("umount -f " ++ vol.MountPoint)) ∈ (d.Unmount r os).events) ∧
    (1 < vol.RefCount → ∀ e ∈ (d.Unmount r os).events, isExec e = false) ∧
    goMapGet (d.Unmount r os).driver.Volumes r.Name =
      some { vol with RefCount := vol.RefCount - 1 } ∧
    (d.Unmount r os).resp = emptyResponse ∧
    (d.Unmount r os).panicked = false := by
  have hdec := uintDec_of_pos vol.RefCount hn hw
  unfold unionMountDriver.Unmount
  rw [hreg]
  by_cases h1 : vol.RefCount = 1
  · have hd1 : uintDec 1 = 0 := by decide
    simp [h1, unmountDecrement, isExec, goMapGet_goMapSet_same, hd1]
  · have h0 : vol.RefCount ≠ 0 := by omega
    simp [h1, h0, unmountDecrement, isExec, goMapGet_goMapSet_same, hdec]

/-- Witness of `C3_unmount_transition`: Unmount of `v1` at count 1 on a host
where the unmount command fails still returns success and leaves count 0. -/
theorem C3_unmount_transition_witness :
    goMapGet (sampleDriver 1).Volumes "v1"
      = some ⟨fsAUFS, ["/a", "/b"], "/r/volumes/v1", 1⟩ ∧
    1 ≤ 1 ∧ 1 < uintSize ∧
    goMapGet ((sampleDriver 1).Unmount ⟨"v1", ""⟩ failingOS).driver.Volumes "v1"
      = some ⟨fsAUFS, ["/a", "/b"], "/r/volumes/v1", 1 - 1⟩ ∧
    ((sampleDriver 1).Unmount ⟨"v1", ""⟩ failingOS).resp = emptyResponse ∧
    ((sampleDriver 1).Unmount ⟨"v1", ""⟩ failingOS).panicked = false :=
  ⟨by decide, by decide, by decide,
    (C3_unmount_transition (sampleDriver 1) ⟨"v1", ""⟩ failingOS
      ⟨fsAUFS, ["/a", "/b"], "/r/volumes/v1", 1⟩ (by decide) (by decide) (by decide)).2.2.2⟩

theorem uintInc_le (n : Nat) : uintInc n ≤ n + 1 := by
  unfold uintInc uintSize
  omega

theorem uintDec_le (n : Nat) (h : 1 ≤ n) : uintDec n + 1 ≤ n := by
  unfold uintDec uintSize
  omega

theorem countInc_append (name : String) (a b : List Event) :
    countInc name (a ++ b) = countInc name a + countInc name b := by
  simp [countInc]

theorem countDec_append (name : String) (a b : List Event) :
    countDec name (a ++ b) = countDec name a + countDec name b := by
  simp [countDec]

/-- One Mount or Unmount of `name`: the volume stays registered, its stored
count moves with the executed increments and decrements and never past them. -/
theorem step_refcount (d : unionMountDriver) (name : String) (vol : unionMountVolume)
    (op : Op) (os : OS) (hreg : goMapGet d.Volumes name = some vol)
    (hop : isMountOrUnmountOf name op = true) :
    ∃ vol1, goMapGet (step d op os).driver.Volumes name = some vol1 ∧
      countDec name (step d op os).events ≤ vol.RefCount ∧
      vol1.RefCount + countDec name (step d op os).events
        ≤ vol.RefCount + countInc name (step d op os).events ∧
      (vol.RefCount + countInc name (step d op os).events < uintSize →
        vol1.RefCount + countDec name (step d op os).events
          = vol.RefCount + countInc name (step d op os).events) := by
  cases op with
  | Mount r =>
    have hr : r.Name = name := by simpa [isMountOrUnmountOf] using hop
    subst hr
    simp only [step, unionMountDriver.Mount, hreg]
    by_cases h0 : vol.RefCount = 0
    · simp only [h0, if_true]
      cases hc : mountCmd vol with
      | none => exact ⟨vol, by simp [hreg, countInc, countDec, h0]⟩
      | some ce =>
        obtain ⟨cmd, e⟩ := ce
        dsimp only
        cases hrun : os.run cmd with
        | some msg => exact ⟨vol, by simp [hreg, countInc, countDec, h0]⟩
        | none =>
          refine ⟨{ vol with RefCount := uintInc vol.RefCount }, ?_⟩
          simp [mountIncrement, goMapGet_goMapSet_same, countInc, countDec, h0, uintInc,
            uintSize]
    · refine ⟨{ vol with RefCount := uintInc vol.RefCount }, ?_⟩
      have hle := uintInc_le vol.RefCount
      simp only [h0, if_false, mountIncrement, goMapGet_goMapSet_same, countInc, countDec]
      simp
      exact ⟨hle, fun h => uintInc_of_lt _ h⟩
  | Unmount r =>
    have hr : r.Name = name := by simpa [isMountOrUnmountOf] using hop
    subst hr
    simp only [step, unionMountDriver.Unmount, hreg]
    by_cases h1 : vol.RefCount = 1
    · refine ⟨{ vol with RefCount := uintDec vol.RefCount }, ?_⟩
      have hd1 : uintDec 1 = 0 := by decide
      simp [h1, unmountDecrement, goMapGet_goMapSet_same, countInc, countDec, hd1]
    · by_cases h0 : vol.RefCount = 0
      · exact ⟨vol, by simp [h1, h0, hreg, countInc, countDec]⟩
      · refine ⟨{ vol with RefCount := uintDec vol.RefCount }, ?_⟩
        have hle := uintDec_le vol.RefCount (by omega)
        simp only [h1, h0, if_false, unmountDecrement, goMapGet_goMapSet_same, countInc,
          countDec]
        simp
        refine ⟨by omega, hle, fun h => ?_⟩
        have := uintDec_of_pos vol.RefCount (by omega) (by omega)
        omega
  | Create r => simp [isMountOrUnmountOf] at hop
  | Remove r => simp [isMountOrUnmountOf] at hop
  | Path r => simp [isMountOrUnmountOf] at hop
  | Get r => simp [isMountOrUnmountOf] at hop
  | List r => simp [isMountOrUnmountOf] at hop
  | Capabilities r => simp [isMountOrUnmountOf] at hop

theorem run_refcount (ops : List (Op × OS)) (name : String) :
    ∀ (d : unionMountDriver) (vol : unionMountVolume),
      goMapGet d.Volumes name = some vol →
      (∀ p ∈ ops, isMountOrUnmountOf name p.1 = true) →
      (∀ k, countDec name ((runOps d ops).2.take k)
        ≤ vol.RefCount + countInc name ((runOps d ops).2.take k)) ∧
      ∃ vol1, goMapGet (runOps d ops).1.Volumes name = some vol1 ∧
        vol1.RefCount + countDec name (runOps d ops).2
          ≤ vol.RefCount + countInc name (runOps d ops).2 ∧
        (vol.RefCount + countInc name (runOps d ops).2 < uintSize →
          vol1.RefCount + countDec name (runOps d ops).2
            = vol.RefCount + countInc name (runOps d ops).2) := by
  induction ops with
  | nil =>
    intro d vol hreg _
    exact ⟨by simp [runOps, countDec], vol, by simp [runOps, hreg, countInc, countDec]⟩
  | cons p rest ih =>
    intro d vol hreg hops
    obtain ⟨op, os⟩ := p
    obtain ⟨vol1, hreg1, hdec1, hle1, heq1⟩ :=
      step_refcount d name vol op os hreg (hops (op, os) (by simp))
    obtain ⟨hpre2, vol2, hreg2, hle2, heq2⟩ :=
      ih (step d op os).driver vol1 hreg1 (fun q hq => hops q (by simp [hq]))
    refine ⟨?_, vol2, by simpa [runOps] using hreg2, ?_, ?_⟩
    · intro k
      simp only [runOps, List.take_append_eq_append_take, countInc_append, countDec_append]
      by_cases hk : k ≤ (step d op os).events.length
      · have h0 : k - (step d op os).events.length = 0 := by omega
        have hsub : countDec name ((step d op os).events.take k)
            ≤ countDec name (step d op os).events :=
          (List.take_sublist k _).count_le _
        simp only [h0, List.take_zero, countDec, countInc, List.count_nil] at *
        omega
      · have hfull : (step d op os).events.take k = (step d op os).events :=
          List.take_of_length_le (by omega)
        have := hpre2 (k - (step d op os).events.length)
        rw [hfull]
        omega
    · simp only [runOps, countInc_append, countDec_append]
      omega
    · simp only [runOps, countInc_append, countDec_append]
      intro h
      have e1 := heq1 (by omega)
      have e2 := heq2 (by omega)
      omega

/-- C1: along every sequence of Mount and Unmount calls on a registered
volume, under any host outcomes, the reference count never goes below 0: at
every point of the event trace the count taken as an integer (count at the
start plus executed increments minus executed decrements) is at least 0, so
no decrement wraps around. The volume stays registered, its stored count is
at most that integer and equals it as long as no increment overflowed. When
the stored count is 0, Unmount returns the "is not mounted" error and leaves
the registry, and so the count 0, as it is. -/
theorem C1_refcount_never_below_zero (d : unionMountDriver) (name : String)
    (vol : unionMountVolume) (ops : List (Op × OS))
    (hreg : goMapGet d.Volumes name = some vol)
    (hops : ∀ p ∈ ops, isMountOrUnmountOf name p.1 = true) :
    (∀ k, 0 ≤ idealCount vol.RefCount name ((runOps d ops).2.take k)) ∧
    ∃ vol1, goMapGet (runOps d ops).1.Volumes name = some vol1 ∧
      (vol1.RefCount : Int) ≤ idealCount vol.RefCount name (runOps d ops).2 ∧
      (vol.RefCount + countInc name (runOps d ops).2 < uintSize →
        (vol1.RefCount : Int) = idealCount vol.RefCount name (runOps d ops).2) ∧
      (vol1.RefCount = 0 → ∀ id os,
        ((runOps d ops).1.Unmount ⟨name, id⟩ os).resp
          = errResponse ("volume (" ++ name ++ ") is not mounted") ∧
        ((runOps d ops).1.Unmount ⟨name, id⟩ os).driver = (runOps d ops).1) := by
  obtain ⟨hpre, vol1, hreg1, hle, heq⟩ := run_refcount ops name d vol hreg hops
  refine ⟨?_, vol1, hreg1, ?_, ?_, ?_⟩
  · intro k
    have := hpre k
    unfold idealCount
    omega
  · unfold idealCount
    omega
  · intro h
    have := heq h
    unfold idealCount
    omega
  · intro h0 id os
    simp [unionMountDriver.Unmount, hreg1, h0]

/-- Witness of `C1_refcount_never_below_zero`: Mount, Unmount, Unmount on `v1`
starting from count 0. -/
theorem C1_refcount_never_below_zero_witness :
    goMapGet (sampleDriver 0).Volumes "v1"
      = some ⟨fsAUFS, ["/a", "/b"], "/r/volumes/v1", 0⟩ ∧
    (∀ p ∈ sampleMountUnmounts, isMountOrUnmountOf "v1" p.1 = true) ∧
    (∀ k, 0 ≤ idealCount 0 "v1" ((runOps (sampleDriver 0) sampleMountUnmounts).2.take k)) :=
  ⟨by decide, by decide,
    (C1_refcount_never_below_zero (sampleDriver 0) "v1"
      ⟨fsAUFS, ["/a", "/b"], "/r/volumes/v1", 0⟩ sampleMountUnmounts
      (by decide) (by decide)).1⟩

/-! ### Create -/

theorem checkLayers_events (os : OS) (layers : List String) :
    ∀ e ∈ (checkLayers os layers).2, ∃ p, e = Event.stat p := by
  induction layers with
  | nil => simp [checkLayers]
  | cons p rest ih =>
    unfold checkLayers
    split_ifs with h1 h2
    · simp
    · simp
    · intro e he
      simp only [List.mem_cons] at he
      rcases he with he | he
      · exact ⟨p, he⟩
      · exact ih e he

theorem countP_eq_zero_of_stat (f : Event → Bool) (hf : ∀ p, f (Event.stat p) = false)
    (evs : List Event) (h : ∀ e ∈ evs, ∃ p, e = Event.stat p) : evs.countP f = 0 := by
  rw [List.countP_eq_zero]
  intro e he
  obtain ⟨p, rfl⟩ := h e he
  simp [hf]

/-- Case analysis of `Create` up to the resolution of the filesystem kind. -/
theorem Create_cases (d : unionMountDriver) (r : volume.Request) (os : OS)
    (P : Outcome → Prop)
    (hNone : goMapGet r.Options "layers" = none →
      P ⟨errResponse "no layers defined", d, [Event.lockDriver, Event.unlockDriver], false⟩)
    (hEmpty : ∀ str, goMapGet r.Options "layers" = some str → ¬ str.length > 0 →
      P ⟨errResponse "no layers defined", d, [Event.lockDriver, Event.unlockDriver], false⟩)
    (hLayer : ∀ str e evs, goMapGet r.Options "layers" = some str → str.length > 0 →
      checkLayers os (stringsSplit str ':') = (some e, evs) →
      P ⟨errResponse e, d, Event.lockDriver :: evs ++ [Event.unlockDriver], false⟩)
    (hToken : ∀ str evs tok fs e, goMapGet r.Options "layers" = some str → str.length > 0 →
      checkLayers os (stringsSplit str ':') = (none, evs) →
      goMapGet r.Options "filesystem" = some tok → fsFromString tok = (fs, some e) →
      P ⟨errResponse e, d, (Event.lockDriver :: evs) ++ [Event.unlockDriver], false⟩)
    (hOption : ∀ str evs tok fs, goMapGet r.Options "layers" = some str → str.length > 0 →
      checkLayers os (stringsSplit str ':') = (none, evs) →
      goMapGet r.Options "filesystem" = some tok → fsFromString tok = (fs, none) →
      P (createWithFilesystem d r os (stringsSplit str ':') fs (Event.lockDriver :: evs)))
    (hDefault : ∀ str evs, goMapGet r.Options "layers" = some str → str.length > 0 →
      checkLayers os (stringsSplit str ':') = (none, evs) →
      goMapGet r.Options "filesystem" = none →
      P (createWithFilesystem d r os (stringsSplit str ':') d.DefaultFS
        (Event.lockDriver :: evs))) :
    P (d.Create r os) := by
  unfold unionMountDriver.Create
  cases hL : goMapGet r.Options "layers" with
  | none => exact hNone hL
  | some str =>
    dsimp only
    by_cases hlen : str.length > 0
    · rw [if_pos hlen]
      rcases hck : checkLayers os (stringsSplit str ':') with ⟨e, evs⟩
      cases e with
      | some e => exact hLayer str e evs hL hlen hck
      | none =>
        dsimp only
        unfold createWithLayers
        cases hF : goMapGet r.Options "filesystem" with
        | none => exact hDefault str evs hL hlen hck hF
        | some tok =>
          dsimp only
          rcases hfs : fsFromString tok with ⟨fs, e⟩
          cases e with
          | none => exact hOption str evs tok fs hL hlen hck hF hfs
          | some e => exact hToken str evs tok fs e hL hlen hck hF hfs
    · rw [if_neg hlen]
      exact hEmpty str hL hlen

/-- Case analysis of the rest of `Create`, from the Overlay check on. -/
theorem createWithFilesystem_cases (d : unionMountDriver) (r : volume.Request) (os : OS)
    (layers : List String) (fs : Int) (pre : List Event) (P : Outcome → Prop)
    (hOverlay : fs = fsOverlay ∧ layers.length > 1 →
      P ⟨errResponse "multiple layers with the overlay filesystem is not implemented", d,
        pre ++ [Event.unlockDriver], false⟩)
    (hMkdir : ∀ err, ¬ (fs = fsOverlay ∧ layers.length > 1) →
      os.mkdirAll (d.mountPoint r.Name) = some err →
      P ⟨errResponse err, d,
        pre ++ [Event.mkdirAll (d.mountPoint r.Name), Event.unlockDriver], false⟩)
    (hDup : ∀ v, ¬ (fs = fsOverlay ∧ layers.length > 1) →
      os.mkdirAll (d.mountPoint r.Name) = none → goMapGet d.Volumes r.Name = some v →
      P ⟨errResponse ("volume \"" ++ r.Name ++ "\" already exists"), d,
        pre ++ [Event.mkdirAll (d.mountPoint r.Name), Event.unlockDriver], false⟩)
    (hNew : ¬ (fs = fsOverlay ∧ layers.length > 1) →
      os.mkdirAll (d.mountPoint r.Name) = none → goMapGet d.Volumes r.Name = none →
      d.nilVolumes = false →
      P ⟨emptyResponse,
        { d with Volumes := goMapSet d.Volumes r.Name ⟨fs, layers, d.mountPoint r.Name, 0⟩ },
        pre ++ [Event.mkdirAll (d.mountPoint r.Name), Event.goSaveState,
          Event.unlockDriver], false⟩)
    (hNil : ¬ (fs = fsOverlay ∧ layers.length > 1) →
      os.mkdirAll (d.mountPoint r.Name) = none → goMapGet d.Volumes r.Name = none →
      d.nilVolumes = true →
      P ⟨emptyResponse, d,
        pre ++ [Event.mkdirAll (d.mountPoint r.Name), Event.unlockDriver], true⟩) :
    P (createWithFilesystem d r os layers fs pre) := by
  unfold createWithFilesystem
  by_cases hov : fs = fsOverlay ∧ layers.length > 1
  · rw [if_pos hov]; exact hOverlay hov
  · rw [if_neg hov]
    cases hmk : os.mkdirAll (d.mountPoint r.Name) with
    | some err => exact hMkdir err hov hmk
    | none =>
      dsimp only
      cases hg : goMapGet d.Volumes r.Name with
      | some v => exact hDup v hov hmk hg
      | none =>
        dsimp only
        by_cases hn : d.nilVolumes = true
        · rw [if_pos hn]; exact hNil hov hmk hg hn
        · rw [if_neg hn]
          exact hNew hov hmk hg (by simpa using hn)

/-- What `Create` can do to the registry: nothing, or add an entry with
reference count 0 under a name that was not registered. -/
theorem Create_driver (d : unionMountDriver) (r : volume.Request) (os : OS) :
    unchangedOrAdded d r.Name (d.Create r os) := by
  have hrest : ∀ layers fs pre,
      unchangedOrAdded d r.Name (createWithFilesystem d r os layers fs pre) := by
    intro layers fs pre
    apply createWithFilesystem_cases d r os layers fs pre (unchangedOrAdded d r.Name)
    · intro _; exact Or.inl rfl
    · intro _ _ _; exact Or.inl rfl
    · intro _ _ _ _; exact Or.inl rfl
    · intro _ _ hg _; exact Or.inr ⟨hg, rfl, fs, layers, rfl⟩
    · intro _ _ _ _; exact Or.inl rfl
  apply Create_cases d r os (unchangedOrAdded d r.Name)
  · intro _; exact Or.inl rfl
  · intro _ _ _; exact Or.inl rfl
  · intro _ _ _ _ _ _; exact Or.inl rfl
  · intro _ _ _ _ _ _ _ _ _ _; exact Or.inl rfl
  · intro str evs tok fs _ _ _ _ _; exact hrest _ _ _
  · intro str evs _ _ _ _; exact hrest _ _ _

/-- `Create` performs only lock, `stat`, `mkdirAll` and snapshot events. -/
theorem Create_events_count (d : unionMountDriver) (r : volume.Request) (os : OS)
    (f : Event → Bool) (hs : ∀ p, f (Event.stat p) = false) (hl : f Event.lockDriver = false)
    (hu : f Event.unlockDriver = false) (hg : f Event.goSaveState = false)
    (hm : ∀ p, f (Event.mkdirAll p) = false) :
    (d.Create r os).events.countP f = 0 := by
  have hst : ∀ layers e evs, checkLayers os layers = (e, evs) → evs.countP f = 0 := by
    intro layers e evs h
    have := countP_eq_zero_of_stat f hs _ (checkLayers_events os layers)
    rw [h] at this
    exact this
  have hrest : ∀ layers fs evs, evs.countP f = 0 →
      (createWithFilesystem d r os layers fs (Event.lockDriver :: evs)).events.countP f = 0 := by
    intro layers fs evs h0
    apply createWithFilesystem_cases d r os layers fs (Event.lockDriver :: evs)
      (fun o => o.events.countP f = 0)
    · intro _; simp [List.countP_cons, List.countP_append, hl, hu, h0]
    · intro _ _ _; simp [List.countP_cons, List.countP_append, hl, hu, hm, h0]
    · intro _ _ _ _; simp [List.countP_cons, List.countP_append, hl, hu, hm, h0]
    · intro _ _ _ _; simp [List.countP_cons, List.countP_append, hl, hu, hm, hg, h0]
    · intro _ _ _ _; simp [List.countP_cons, List.countP_append, hl, hu, hm, h0]
  apply Create_cases d r os (fun o => o.events.countP f = 0)
  · intro _; simp [List.countP_cons, hl, hu]
  · intro _ _ _; simp [List.countP_cons, hl, hu]
  · intro str e evs _ _ hck
    simp [List.countP_cons, List.countP_append, hl, hu, hst _ _ _ hck]
  · intro str evs tok fs e _ _ hck _ _
    simp [List.countP_cons, List.countP_append, hl, hu, hst _ _ _ hck]
  · intro str evs tok fs _ _ hck _ _; exact hrest _ _ _ (hst _ _ _ hck)
  · intro str evs _ _ hck _; exact hrest _ _ _ (hst _ _ _ hck)

theorem countUmount_append (name : String) (a b : List Event) :
    countUmount name (a ++ b) = countUmount name a + countUmount name b := by
  simp [countUmount]

theorem countMountOk_append (name : String) (a b : List Event) :
    countMountOk name (a ++ b) = countMountOk name a + countMountOk name b := by
  simp [countMountOk]

theorem step_pairing (d : unionMountDriver) (name : String) (op : Op) (os : OS) (c : Nat)
    (hinv : mountedCovered d name c) :
    countUmount name (step d op os).events ≤ c ∧
    mountedCovered (step d op os).driver name
      (c + countMountOk name (step d op os).events - countUmount name (step d op os).events) := by
  cases op with
  | Create r =>
    have hu : countUmount name (d.Create r os).events = 0 :=
      Create_events_count d r os (isUmount name) (by simp [isUmount]) rfl rfl rfl
        (by simp [isUmount])
    have hm : countMountOk name (d.Create r os).events = 0 :=
      Create_events_count d r os (isMountOk name) (by simp [isMountOk]) rfl rfl rfl
        (by simp [isMountOk])
    simp only [step, hu, hm]
    refine ⟨by omega, ?_⟩
    rcases Create_driver d r os with h | ⟨hnone, _, fs, layers, h⟩
    · rw [h]; simpa using hinv
    · rw [h]
      intro vol hv hne
      by_cases hname : r.Name = name
      · subst hname
        simp only [goMapGet_goMapSet_same, Option.some.injEq] at hv
        subst hv
        exact absurd rfl hne
      · simp only [goMapGet_goMapSet_other _ _ _ _ hname] at hv
        simpa using hinv vol hv hne
  | Remove r =>
    simp only [step, unionMountDriver.Remove]
    cases hg : goMapGet d.Volumes r.Name with
    | none => simpa [countUmount, countMountOk, isUmount, isMountOk] using hinv
    | some vol =>
      dsimp only
      by_cases h0 : vol.RefCount = 0
      · rw [if_pos h0]
        cases hrm : os.removeAll vol.MountPoint with
        | some e => simpa [countUmount, countMountOk, isUmount, isMountOk] using hinv
        | none =>
          simp only [countUmount, countMountOk, isUmount, isMountOk, List.countP_cons,
            List.countP_nil]
          refine ⟨by simp, ?_⟩
          intro v hv hne
          by_cases hname : r.Name = name
          · subst hname
            simp [goMapGet_goMapDelete_same] at hv
          · simp only [goMapGet_goMapDelete_other _ _ _ hname] at hv
            simpa using hinv v hv hne
      · rw [if_neg h0]
        simpa [countUmount, countMountOk, isUmount, isMountOk] using hinv
  | Mount r =>
    simp only [step, unionMountDriver.Mount]
    cases hg : goMapGet d.Volumes r.Name with
    | none => simpa [countUmount, countMountOk, isUmount, isMountOk] using hinv
    | some vol =>
      dsimp only
      by_cases hname : r.Name = name
      · subst hname
        by_cases h0 : vol.RefCount = 0
        · rw [if_pos h0]
          cases hc : mountCmd vol with
          | none => simpa [countUmount, countMountOk, isUmount, isMountOk] using hinv
          | some ce =>
            obtain ⟨cmd, e⟩ := ce
            dsimp only
            cases hrun : os.run cmd with
            | some msg => simpa [countUmount, countMountOk, isUmount, isMountOk] using hinv
            | none =>
              simp [mountIncrement, countUmount, countMountOk, isUmount, isMountOk,
                mountedCovered]
        · rw [if_neg h0]
          have := hinv vol hg h0
          simp [mountIncrement, countUmount, countMountOk, isUmount, isMountOk,
            mountedCovered]
          intro _ _ _; exact this
      · have hother : ∀ v2, goMapGet (goMapSet d.Volumes r.Name v2) name
            = goMapGet d.Volumes name := fun v2 => goMapGet_goMapSet_other _ _ _ _ hname
        by_cases h0 : vol.RefCount = 0
        · rw [if_pos h0]
          cases hc : mountCmd vol with
          | none => simpa [countUmount, countMountOk, isUmount, isMountOk] using hinv
          | some ce =>
            obtain ⟨cmd, e⟩ := ce
            dsimp only
            cases hrun : os.run cmd with
            | some msg =>
              simpa [countUmount, countMountOk, isUmount, isMountOk, hname] using hinv
            | none =>
              simpa [mountIncrement, countUmount, countMountOk, isUmount, isMountOk,
                mountedCovered, hname, hother] using hinv
        · rw [if_neg h0]
          simpa [mountIncrement, countUmount, countMountOk, isUmount, isMountOk,
            mountedCovered, hname, hother] using hinv
  | Unmount r =>
    simp only [step, unionMountDriver.Unmount]
    cases hg : goMapGet d.Volumes r.Name with
    | none => simpa [countUmount, countMountOk, isUmount, isMountOk] using hinv
    | some vol =>
      dsimp only
      by_cases hname : r.Name = name
      · subst hname
        by_cases h1 : vol.RefCount = 1
        · rw [if_pos h1]
          have hc := hinv vol hg (by omega)
          have hd1 : uintDec 1 = 0 := by decide
          simp [unmountDecrement, countUmount, countMountOk, isUmount, isMountOk,
            mountedCovered, goMapGet_goMapSet_same, h1, hd1]
          exact hc
        · rw [if_neg h1]
          by_cases h0 : vol.RefCount = 0
          · rw [if_pos h0]
            simpa [countUmount, countMountOk, isUmount, isMountOk] using hinv
          · rw [if_neg h0]
            have hc := hinv vol hg h0
            simp [unmountDecrement, countUmount, countMountOk, isUmount, isMountOk,
              mountedCovered]
            intro _ _ _; exact hc
      · have hother : ∀ v2, goMapGet (goMapSet d.Volumes r.Name v2) name
            = goMapGet d.Volumes name := fun v2 => goMapGet_goMapSet_other _ _ _ _ hname
        by_cases h1 : vol.RefCount = 1
        · rw [if_pos h1]
          simpa [unmountDecrement, countUmount, countMountOk, isUmount, isMountOk,
            mountedCovered, hname, hother] using hinv
        · rw [if_neg h1]
          by_cases h0 : vol.RefCount = 0
          · rw [if_pos h0]
            simpa [countUmount, countMountOk, isUmount, isMountOk] using hinv
          · rw [if_neg h0]
            simpa [unmountDecrement, countUmount, countMountOk, isUmount, isMountOk,
              mountedCovered, hname, hother] using hinv
  | Path r =>
    simp only [step, unionMountDriver.Path]
    cases hg : goMapGet d.Volumes r.Name <;>
      simpa [countUmount, countMountOk, isUmount, isMountOk] using hinv
  | Get r =>
    simp only [step, unionMountDriver.Get]
    cases hg : goMapGet d.Volumes r.Name <;>
      simpa [countUmount, countMountOk, isUmount, isMountOk] using hinv
  | List r =>
    simpa [step, unionMountDriver.List, countUmount, countMountOk, isUmount, isMountOk]
      using hinv
  | Capabilities r =>
    simpa [step, unionMountDriver.Capabilities, countUmount, countMountOk, isUmount,
      isMountOk] using hinv


theorem run_pairing (ops : List (Op × OS)) (name : String) :
    ∀ (d : unionMountDriver) (c k : Nat), mountedCovered d name c →
      countUmount name ((runOps d ops).2.take k)
        ≤ c + countMountOk name ((runOps d ops).2.take k) := by
  induction ops with
  | nil => intro d c k _; simp [runOps, countUmount]
  | cons p rest ih =>
    intro d c k hinv
    obtain ⟨op, os⟩ := p
    obtain ⟨hle, hinv1⟩ := step_pairing d name op os c hinv
    simp only [runOps, List.take_append_eq_append_take, countUmount_append,
      countMountOk_append]
    by_cases hk : k ≤ (step d op os).events.length
    · have h0 : k - (step d op os).events.length = 0 := by omega
      have hsub : countUmount name ((step d op os).events.take k)
          ≤ countUmount name (step d op os).events :=
        (List.take_sublist k _).countP_le _
      simp only [h0, List.take_zero, countUmount, countMountOk, List.countP_nil] at *
      omega
    · have hfull : (step d op os).events.take k = (step d op os).events :=
        List.take_of_length_le (by omega)
      have := ih (step d op os).driver _ (k - (step d op os).events.length) hinv1
      rw [hfull]
      omega

/-- C4: for every sequence of requests served from an empty registry, under
any host outcomes, and for each volume name, at every point of the event
trace the number of unmount commands issued for that name so far is at most
the number of its mount commands that ran without error so far. -/
theorem C4_unmounts_le_mounts (rootDir : String) (defaultFS : Int) (ops : List (Op × OS))
    (name : String) (k : Nat) :
    countUmount name ((runOps (newUnionMountDriver rootDir defaultFS) ops).2.take k)
      ≤ countMountOk name ((runOps (newUnionMountDriver rootDir defaultFS) ops).2.take k) := by
  have h := run_pairing ops name (newUnionMountDriver rootDir defaultFS) 0 k
    (by intro vol hv; simp [newUnionMountDriver, goMapGet] at hv)
  simpa using h

theorem string_length_pos_iff (s : String) : s.length > 0 ↔ s ≠ "" := by
  cases s with
  | mk l =>
    cases l with
    | nil => simp [String.length]
    | cons c cs =>
      simp only [String.length, List.length_cons, gt_iff_lt, Nat.zero_lt_succ, true_iff]
      intro h
      have := congrArg String.data h
      simp at this

theorem checkLayers_fst (os : OS) (layers : List String) :
    (checkLayers os layers).1
      = firstError (layers.map (fun p => firstError [relativeError p, missingError os p])) := by
  induction layers with
  | nil => simp [checkLayers, firstError]
  | cons p rest ih =>
    unfold checkLayers
    by_cases h1 : filepathIsAbs p = false
    · simp [h1, firstError, relativeError]
    · by_cases h2 : os.statNotExist p = true
      · simp [h1, h2, firstError, relativeError, missingError]
      · simp [h1, h2, firstError, relativeError, missingError, ih]


theorem createWithFilesystem_validation (d : unionMountDriver) (r : volume.Request) (os : OS)
    (str : String) (evs : List Event) (fs : Int)
    (hL : goMapGet r.Options "layers" = some str) (hlen : str.length > 0)
    (hck : checkLayers os (stringsSplit str ':') = (none, evs))
    (hfe : filesystemOptionError r = none) (hfs : resolvedKind d r = fs) :
    validationOutcome d r os
      (createWithFilesystem d r os (stringsSplit str ':') fs (Event.lockDriver :: evs)) := by
  have hne : str ≠ "" := (string_length_pos_iff str).1 hlen
  have hlay : firstError ((stringsSplit str ':').map
      (fun p => firstError [relativeError p, missingError os p])) = none := by
    rw [← checkLayers_fst, hck]
  have hev : evs.countP isMkdirAll = 0 := by
    have := countP_eq_zero_of_stat isMkdirAll (by simp [isMkdirAll]) _
      (checkLayers_events os (stringsSplit str ':'))
    rw [hck] at this
    exact this
  have hreq : requestedLayers r = stringsSplit str ':' := by simp [requestedLayers, hL]
  by_cases hov : fs = fsOverlay ∧ (stringsSplit str ':').length > 1
  · have hve : validationError d r os
        = some "multiple layers with the overlay filesystem is not implemented" := by
      simp [validationError, firstError, layersOptionError, hL, hne, hreq, hlay, hfe,
        overlayLayersError, hfs, hov]
    constructor
    · intro e he
      rw [hve] at he
      cases he
      simp [createWithFilesystem, hov, List.countP_cons, List.countP_append, isMkdirAll, hev]
    · intro h; rw [hve] at h; cases h
  · have hve : validationError d r os = none := by
      simp [validationError, firstError, layersOptionError, hL, hne, hreq, hlay, hfe,
        overlayLayersError, hfs, hov]
    constructor
    · intro e he; rw [hve] at he; cases he
    · intro _
      rw [hreq, hfs]
      exact ⟨hov, evs, hev, rfl⟩

/-- `Create` returns the error of the first failing validation check without
touching the registry or making a directory, and goes on to the mount-point
part when no check fails. -/
theorem Create_validation (d : unionMountDriver) (r : volume.Request) (os : OS) :
    validationOutcome d r os (d.Create r os) := by
  apply Create_cases d r os (validationOutcome d r os)
  · intro hL
    have hve : validationError d r os = some "no layers defined" := by
      simp [validationError, firstError, layersOptionError, hL]
    constructor
    · intro e he; rw [hve] at he; cases he; simp [List.countP_cons, isMkdirAll]
    · intro h; rw [hve] at h; cases h
  · intro str hL hlen
    have hs : str = "" := by
      by_contra hne
      exact hlen ((string_length_pos_iff str).2 hne)
    have hve : validationError d r os = some "no layers defined" := by
      simp [validationError, firstError, layersOptionError, hL, hs]
    constructor
    · intro e he; rw [hve] at he; cases he; simp [List.countP_cons, isMkdirAll]
    · intro h; rw [hve] at h; cases h
  · intro str e evs hL hlen hck
    have hne : str ≠ "" := (string_length_pos_iff str).1 hlen
    have hlay : firstError ((stringsSplit str ':').map
        (fun p => firstError [relativeError p, missingError os p])) = some e := by
      rw [← checkLayers_fst, hck]
    have hev : evs.countP isMkdirAll = 0 := by
      have := countP_eq_zero_of_stat isMkdirAll (by simp [isMkdirAll]) _
        (checkLayers_events os (stringsSplit str ':'))
      rw [hck] at this
      exact this
    have hve : validationError d r os = some e := by
      simp [validationError, firstError, layersOptionError, hL, hne, requestedLayers, hlay]
    constructor
    · intro e2 he
      rw [hve] at he
      cases he
      simp [List.countP_cons, List.countP_append, isMkdirAll, hev]
    · intro h; rw [hve] at h; cases h
  · intro str evs tok fs e hL hlen hck hF hfs
    have hne : str ≠ "" := (string_length_pos_iff str).1 hlen
    have hlay : firstError ((stringsSplit str ':').map
        (fun p => firstError [relativeError p, missingError os p])) = none := by
      rw [← checkLayers_fst, hck]
    have hev : evs.countP isMkdirAll = 0 := by
      have := countP_eq_zero_of_stat isMkdirAll (by simp [isMkdirAll]) _
        (checkLayers_events os (stringsSplit str ':'))
      rw [hck] at this
      exact this
    have hve : validationError d r os = some e := by
      simp [validationError, firstError, layersOptionError, hL, hne, requestedLayers, hlay,
        filesystemOptionError, hF, hfs]
    constructor
    · intro e2 he
      rw [hve] at he
      cases he
      simp [List.countP_cons, List.countP_append, isMkdirAll, hev]
    · intro h; rw [hve] at h; cases h
  · intro str evs tok fs hL hlen hck hF hfs
    exact createWithFilesystem_validation d r os str evs fs hL hlen hck
      (by simp [filesystemOptionError, hF, hfs]) (by simp [resolvedKind, hF, hfs])
  · intro str evs hL hlen hck hF
    exact createWithFilesystem_validation d r os str evs d.DefaultFS hL hlen hck
      (by simp [filesystemOptionError, hF]) (by simp [resolvedKind, hF])


theorem firstError_eq_none_iff (l : List (Option String)) :
    firstError l = none ↔ ∀ x ∈ l, x = none := by
  induction l with
  | nil => simp [firstError]
  | cons x rest ih =>
    cases x with
    | none => simp [firstError, ih]
    | some e => simp [firstError]

theorem failsValidation_iff (d : unionMountDriver) (r : volume.Request) (os : OS) :
    failsValidation d r os = true ↔ validationError d r os ≠ none := by
  have hlay : firstError ((requestedLayers r).map
        (fun p => firstError [relativeError p, missingError os p])) = none ↔
      ∀ p ∈ requestedLayers r, filepathIsAbs p = true ∧ os.statNotExist p = false := by
    rw [firstError_eq_none_iff]
    simp only [List.mem_map, forall_exists_index, and_imp, forall_apply_eq_imp_iff₂]
    apply forall_congr'
    intro p
    apply imp_congr_right
    intro _
    by_cases h1 : filepathIsAbs p = true <;> by_cases h2 : os.statNotExist p = true <;>
      simp [firstError, relativeError, missingError, h1, h2]
  have hov : overlayLayersError d r = none ↔
      ¬ (resolvedKind d r = fsOverlay ∧ (requestedLayers r).length > 1) := by
    unfold overlayLayersError
    split_ifs with h <;> simp [h]
  rw [Ne, validationError, firstError_eq_none_iff]
  simp only [List.mem_cons, List.mem_singleton, forall_eq_or_imp, forall_eq, hlay, hov,
    List.not_mem_nil, false_imp_iff, implies_true, and_true]
  unfold failsValidation
  cases h1 : layersOptionError r <;> cases h4 : filesystemOptionError r <;>
    by_cases h5 : (resolvedKind d r = fsOverlay ∧ (requestedLayers r).length > 1) <;>
    simp [h5, List.any_eq_true]
  constructor
  · rintro (⟨x, hx, h⟩ | ⟨x, hx, h⟩)
    · exact ⟨x, hx, fun h2 => by rw [h] at h2; cases h2⟩
    · exact ⟨x, hx, fun _ => h⟩
  · rintro ⟨x, hx, h⟩
    by_cases ha : filepathIsAbs x = true
    · exact Or.inr ⟨x, hx, h ha⟩
    · exact Or.inl ⟨x, hx, by simpa using ha⟩

/-- C8 fails as stated: with the layers `/missing:rel`, where `/missing` does
not exist, the claimed order gives the relative-path error of `rel`, but
`Create` returns the does-not-exist error of `/missing`. -/
theorem C8_counterexample :
    claimedValidationError (sampleDriver 0) ⟨"v3", [("layers", "/missing:rel")]⟩ missingOS
      = some "layer path \"rel\" is not relative" ∧
    ((sampleDriver 0).Create ⟨"v3", [("layers", "/missing:rel")]⟩ missingOS).resp
      = errResponse "layer path \"/missing\" does not exist" := by
  decide

/-- C8 (amended): the error returned by `Create` is that of the first failing
check in this order: the layers option is present and not empty; then, for
each layer in list order, the path is absolute and, after that, the path
exists; then a given filesystem option resolves; then an Overlay kind has at
most one layer. The registry is left as it was. -/
theorem C8_create_first_failing_check (d : unionMountDriver) (r : volume.Request) (os : OS)
    (e : String) (h : validationError d r os = some e) :
    (d.Create r os).resp = errResponse e ∧ (d.Create r os).driver = d := by
  obtain ⟨h1, h2, _⟩ := (Create_validation d r os).1 e h
  exact ⟨h1, h2⟩

/-- Witness of `C8_create_first_failing_check`: of a relative and a
nonexistent layer, the one that comes first in the list gives the error. -/
theorem C8_create_first_failing_check_witness :
    validationError (sampleDriver 0) ⟨"v3", [("layers", "/missing:rel")]⟩ missingOS
      = some "layer path \"/missing\" does not exist" ∧
    validationError (sampleDriver 0) ⟨"v3", [("layers", "rel:/missing")]⟩ missingOS
      = some "layer path \"rel\" is not relative" ∧
    ((sampleDriver 0).Create ⟨"v3", [("layers", "/missing:rel")]⟩ missingOS).resp
      = errResponse "layer path \"/missing\" does not exist" ∧
    ((sampleDriver 0).Create ⟨"v3", [("layers", "rel:/missing")]⟩ missingOS).resp
      = errResponse "layer path \"rel\" is not relative" :=
  ⟨by decide, by decide,
    (C8_create_first_failing_check (sampleDriver 0) ⟨"v3", [("layers", "/missing:rel")]⟩
      missingOS _ (by decide)).1,
    (C8_create_first_failing_check (sampleDriver 0) ⟨"v3", [("layers", "rel:/missing")]⟩
      missingOS _ (by decide)).1⟩

/-- C9: every `Create` call that returns an error leaves the registry exactly
as it was (root directory, default kind, the names and every volume with its
kind, layers, mount point and reference count); so does every call in which
validation fails, directory creation fails or the name is already
registered. -/
theorem C9_failed_create_changes_nothing (d : unionMountDriver) (r : volume.Request)
    (os : OS)
    (h : (d.Create r os).resp.Err ≠ "" ∨ failsValidation d r os = true ∨
      os.mkdirAll (d.mountPoint r.Name) ≠ none ∨ goMapGet d.Volumes r.Name ≠ none) :
    (d.Create r os).driver = d := by
  cases hve : validationError d r os with
  | some e => exact ((Create_validation d r os).1 e hve).2.1
  | none =>
    obtain ⟨hov, evs, _, ho⟩ := (Create_validation d r os).2 hve
    rw [ho] at h ⊢
    revert h
    apply createWithFilesystem_cases d r os (requestedLayers r) (resolvedKind d r)
      (Event.lockDriver :: evs)
      (fun o => (o.resp.Err ≠ "" ∨ failsValidation d r os = true ∨
        os.mkdirAll (d.mountPoint r.Name) ≠ none ∨ goMapGet d.Volumes r.Name ≠ none) →
        o.driver = d)
    · intro _ _; rfl
    · intro _ _ _ _; rfl
    · intro _ _ _ _ _; rfl
    · intro _ hmk hg _ h
      rcases h with h | h | h | h
      · exact absurd rfl h
      · exact absurd hve ((failsValidation_iff d r os).1 h)
      · exact absurd hmk h
      · exact absurd hg h
    · intro _ _ _ _ _; rfl

/-- Witness of `C9_failed_create_changes_nothing`: Create of `v2` with layers
`/a:/b` on Overlay fails and changes nothing; Create of the registered `v1`
fails with the already-exists error and `v1` is not replaced. -/
theorem C9_failed_create_changes_nothing_witness :
    ((sampleDriver 0).Create ⟨"v2", [("layers", "/a:/b"), ("filesystem", "overlay")]⟩ okOS).resp
      = errResponse "multiple layers with the overlay filesystem is not implemented" ∧
    ((sampleDriver 0).Create ⟨"v2", [("layers", "/a:/b"), ("filesystem", "overlay")]⟩
      okOS).driver = sampleDriver 0 ∧
    goMapGet (sampleDriver 0).Volumes "v1" ≠ none ∧
    ((sampleDriver 0).Create ⟨"v1", [("layers", "/c")]⟩ okOS).resp
      = errResponse "volume \"v1\" already exists" ∧
    ((sampleDriver 0).Create ⟨"v1", [("layers", "/c")]⟩ okOS).driver = sampleDriver 0 :=
  ⟨by decide,
    C9_failed_create_changes_nothing (sampleDriver 0)
      ⟨"v2", [("layers", "/a:/b"), ("filesystem", "overlay")]⟩ okOS (Or.inl (by decide)),
    by decide, by decide,
    C9_failed_create_changes_nothing (sampleDriver 0) ⟨"v1", [("layers", "/c")]⟩ okOS
      (Or.inr (Or.inr (Or.inr (by decide))))⟩

/-- C10: every `Create` call that fails a validation check (missing or empty
layers, a relative layer path, a nonexistent layer path, an unsupported
filesystem token, more than one layer for Overlay) returns an error without
any directory creation in its event trace, and leaves the registry as it
was. -/
theorem C10_no_mkdir_on_validation_failure (d : unionMountDriver) (r : volume.Request)
    (os : OS) (h : failsValidation d r os = true) :
    (∀ ev ∈ (d.Create r os).events, isMkdirAll ev = false) ∧
    (∃ e, (d.Create r os).resp = errResponse e) ∧
    (d.Create r os).driver = d := by
  have hne := (failsValidation_iff d r os).1 h
  cases hve : validationError d r os with
  | none => exact absurd hve hne
  | some e =>
    obtain ⟨h1, h2, h3⟩ := (Create_validation d r os).1 e hve
    refine ⟨?_, ⟨e, h1⟩, h2⟩
    intro ev hev
    have := List.countP_eq_zero.1 h3 ev hev
    simpa using this

/-- Witness of `C10_no_mkdir_on_validation_failure`: Create of `v3` with the
layers `relative/path`. -/
theorem C10_no_mkdir_on_validation_failure_witness :
    failsValidation (sampleDriver 0) ⟨"v3", [("layers", "relative/path")]⟩ okOS = true ∧
    ((sampleDriver 0).Create ⟨"v3", [("layers", "relative/path")]⟩ okOS).resp
      = errResponse "layer path \"relative/path\" is not relative" ∧
    (∀ ev ∈ ((sampleDriver 0).Create ⟨"v3", [("layers", "relative/path")]⟩ okOS).events,
      isMkdirAll ev = false) :=
  ⟨by decide, by decide,
    (C10_no_mkdir_on_validation_failure (sampleDriver 0)
      ⟨"v3", [("layers", "relative/path")]⟩ okOS (by decide)).1⟩

/-! ### Create success and Remove -/

theorem goMapGet_mem {β : Type} (m : List (String × β)) (k : String) (v : β)
    (h : goMapGet m k = some v) : (k, v) ∈ m := by
  induction m with
  | nil => simp [goMapGet] at h
  | cons p rest ih =>
    obtain ⟨k', v'⟩ := p
    by_cases hk : k' = k
    · subst hk
      simp only [goMapGet, if_true, Option.some.injEq] at h
      subst h
      simp
    · simp only [goMapGet, hk, if_false] at h
      exact List.mem_cons_of_mem _ (ih h)

/-- C11 fails as stated: a driver decoded from a state file that holds no
volume map has the nil map and is the driver that `main` serves. On it a
`Create` of the unregistered name `v2` that passes every validation check and
whose directory creation succeeds panics at the assignment into the map: it
returns no response and registers nothing. -/
theorem C11_counterexample :
    (main "/r" "aufs" (fun _ => StateFile.decoded nilMapDriver)).served = some nilMapDriver ∧
    goMapGet nilMapDriver.Volumes "v2" = none ∧
    failsValidation nilMapDriver
      ⟨"v2", [("layers", "/a:/b"), ("filesystem", "aufs")]⟩ okOS = false ∧
    okOS.mkdirAll (nilMapDriver.mountPoint "v2") = none ∧
    (nilMapDriver.Create
      ⟨"v2", [("layers", "/a:/b"), ("filesystem", "aufs")]⟩ okOS).panicked = true ∧
    goMapGet (nilMapDriver.Create
      ⟨"v2", [("layers", "/a:/b"), ("filesystem", "aufs")]⟩ okOS).driver.Volumes "v2"
      = none := by
  decide

/-- C11 (amended): on a registry whose volume map is not nil, a `Create`
request for an unregistered name that passes every validation check (layers
option present and not empty, every layer absolute and existing, a given
filesystem option resolving, no Overlay with more than one layer) and whose
directory creation succeeds returns no error and does not panic; the
registry afterwards is the old one plus one entry for the name, with
reference count 0, the layers option split on `:` in order, the kind of the
filesystem option or else the default kind, and the mount point
`mountPoint(name)`; every other entry, the root directory and the default
kind are unchanged. -/
theorem C11_create_success (d : unionMountDriver) (r : volume.Request) (os : OS)
    (hmade : d.nilVolumes = false)
    (hfresh : goMapGet d.Volumes r.Name = none)
    (hval : failsValidation d r os = false)
    (hmk : os.mkdirAll (d.mountPoint r.Name) = none) :
    (d.Create r os).resp = emptyResponse ∧
    (d.Create r os).panicked = false ∧
    (d.Create r os).driver.RootDir = d.RootDir ∧
    (d.Create r os).driver.DefaultFS = d.DefaultFS ∧
    (d.Create r os).driver.nilVolumes = false ∧
    (d.Create r os).driver.Volumes = goMapSet d.Volumes r.Name
      ⟨resolvedKind d r, requestedLayers r, d.mountPoint r.Name, 0⟩ ∧
    goMapGet (d.Create r os).driver.Volumes r.Name =
      some ⟨resolvedKind d r, requestedLayers r, d.mountPoint r.Name, 0⟩ ∧
    (∀ n, n ≠ r.Name →
      goMapGet (d.Create r os).driver.Volumes n = goMapGet d.Volumes n) := by
  have hve : validationError d r os = none := by
    by_contra hne
    have := (failsValidation_iff d r os).2 hne
    rw [hval] at this
    cases this
  obtain ⟨hov, evs, _, ho⟩ := (Create_validation d r os).2 hve
  rw [ho]
  apply createWithFilesystem_cases d r os (requestedLayers r) (resolvedKind d r)
    (Event.lockDriver :: evs)
    (fun o => o.resp = emptyResponse ∧ o.panicked = false ∧
      o.driver.RootDir = d.RootDir ∧ o.driver.DefaultFS = d.DefaultFS ∧
      o.driver.nilVolumes = false ∧
      o.driver.Volumes = goMapSet d.Volumes r.Name
        ⟨resolvedKind d r, requestedLayers r, d.mountPoint r.Name, 0⟩ ∧
      goMapGet o.driver.Volumes r.Name =
        some ⟨resolvedKind d r, requestedLayers r, d.mountPoint r.Name, 0⟩ ∧
      (∀ n, n ≠ r.Name → goMapGet o.driver.Volumes n = goMapGet d.Volumes n))
  · intro h; exact absurd h hov
  · intro err _ h; rw [hmk] at h; cases h
  · intro v _ _ h; rw [hfresh] at h; cases h
  · intro _ _ _ _
    exact ⟨rfl, rfl, rfl, rfl, hmade, rfl, goMapGet_goMapSet_same _ _ _,
      fun n hne => goMapGet_goMapSet_other _ _ _ _ (Ne.symm hne)⟩
  · intro _ _ _ h; rw [hmade] at h; cases h

/-- Witness of `C11_create_success`: Create of `v2` over `/a:/b` on AUFS
in a registry under `/r` gives the mount point `/r/volumes/v2`. -/
theorem C11_create_success_witness :
    (sampleDriver 0).nilVolumes = false ∧
    goMapGet (sampleDriver 0).Volumes "v2" = none ∧
    failsValidation (sampleDriver 0)
      ⟨"v2", [("layers", "/a:/b"), ("filesystem", "aufs")]⟩ okOS = false ∧
    okOS.mkdirAll ((sampleDriver 0).mountPoint "v2") = none ∧
    ((sampleDriver 0).Create
      ⟨"v2", [("layers", "/a:/b"), ("filesystem", "aufs")]⟩ okOS).resp = emptyResponse ∧
    goMapGet ((sampleDriver 0).Create
      ⟨"v2", [("layers", "/a:/b"), ("filesystem", "aufs")]⟩ okOS).driver.Volumes "v2"
      = some ⟨fsAUFS, ["/a", "/b"], "/r/volumes/v2", 0⟩ :=
  ⟨by decide, by decide, by decide, by decide,
    (C11_create_success (sampleDriver 0)
      ⟨"v2", [("layers", "/a:/b"), ("filesystem", "aufs")]⟩ okOS
      (by decide) (by decide) (by decide) (by decide)).1,
    (C11_create_success (sampleDriver 0)
      ⟨"v2", [("layers", "/a:/b"), ("filesystem", "aufs")]⟩ okOS
      (by decide) (by decide) (by decide) (by decide)).2.2.2.2.2.2.1⟩

/-- C12: `Remove` on a registered volume whose reference count is not 0
returns the empty (successful) response, has no directory deletion in its
event trace and leaves the registry as it was, so the volume keeps its
layers, mount point and reference count, and a following `List` contains its
name with its mount point. -/
theorem C12_remove_mounted_is_noop (d : unionMountDriver) (r r2 : volume.Request) (os : OS)
    (vol : unionMountVolume) (hreg : goMapGet d.Volumes r.Name = some vol)
    (hn : 0 < vol.RefCount) :
    (d.Remove r os).resp = emptyResponse ∧
    (∀ p, Event.removeAll p ∉ (d.Remove r os).events) ∧
    (d.Remove r os).driver = d ∧
    goMapGet (d.Remove r os).driver.Volumes r.Name = some vol ∧
    (⟨r.Name, vol.MountPoint⟩ : volume.Volume)
      ∈ ((d.Remove r os).driver.List r2).resp.Volumes := by
  have h0 : vol.RefCount ≠ 0 := by omega
  have hmem := goMapGet_mem _ _ _ hreg
  simp only [unionMountDriver.Remove, hreg, h0, if_false, unionMountDriver.List]
  refine ⟨trivial, by simp, trivial, trivial, ?_⟩
  exact List.mem_map.2 ⟨(r.Name, vol), hmem, rfl⟩

/-- Witness of `C12_remove_mounted_is_noop`: Remove of `v1` while its
reference count is 1. -/
theorem C12_remove_mounted_is_noop_witness :
    goMapGet (sampleDriver 1).Volumes "v1"
      = some ⟨fsAUFS, ["/a", "/b"], "/r/volumes/v1", 1⟩ ∧
    0 < 1 ∧
    ((sampleDriver 1).Remove ⟨"v1", []⟩ okOS).resp = emptyResponse ∧
    ((sampleDriver 1).Remove ⟨"v1", []⟩ okOS).driver = sampleDriver 1 ∧
    (⟨"v1", "/r/volumes/v1"⟩ : volume.Volume)
      ∈ (((sampleDriver 1).Remove ⟨"v1", []⟩ okOS).driver.List ⟨"", []⟩).resp.Volumes :=
  ⟨by decide, by decide,
    (C12_remove_mounted_is_noop (sampleDriver 1) ⟨"v1", []⟩ ⟨"", []⟩ okOS
      ⟨fsAUFS, ["/a", "/b"], "/r/volumes/v1", 1⟩ (by decide) (by decide)).1,
    (C12_remove_mounted_is_noop (sampleDriver 1) ⟨"v1", []⟩ ⟨"", []⟩ okOS
      ⟨fsAUFS, ["/a", "/b"], "/r/volumes/v1", 1⟩ (by decide) (by decide)).2.2.1,
    (C12_remove_mounted_is_noop (sampleDriver 1) ⟨"v1", []⟩ ⟨"", []⟩ okOS
      ⟨fsAUFS, ["/a", "/b"], "/r/volumes/v1", 1⟩ (by decide) (by decide)).2.2.2.2⟩

/-- C13 fails as stated: when the deletion of the mount-point directory of
`v1` fails with the error `failed`, `Remove` returns its own message naming
the path, not the underlying deletion error. -/
theorem C13_counterexample :
    goMapGet (sampleDriver 0).Volumes "v1"
      = some ⟨fsAUFS, ["/a", "/b"], "/r/volumes/v1", 0⟩ ∧
    failingOS.removeAll "/r/volumes/v1" = some "failed" ∧
    ((sampleDriver 0).Remove ⟨"v1", []⟩ failingOS).resp
      = errResponse "error removing volume path \x27/r/volumes/v1\x27" ∧
    ((sampleDriver 0).Remove ⟨"v1", []⟩ failingOS).resp.Err ≠ "failed" := by
  decide

/-- C13 (amended): `Remove` on an unregistered name returns the
does-not-exist error and changes nothing. On a registered volume with
reference count 0 it deletes the mount-point directory recursively: if the
deletion fails, it returns an error message that names the mount-point path
and the registry is unchanged; if it succeeds, it returns the empty response
and the registry afterwards is the old one without that name, every other
entry unchanged. -/
theorem C13_remove (d : unionMountDriver) (r : volume.Request) (os : OS) :
    (goMapGet d.Volumes r.Name = none →
      (d.Remove r os).resp = errResponse ("volume (" ++ r.Name ++ ") does not exist") ∧
      (d.Remove r os).driver = d) ∧
    (∀ vol, goMapGet d.Volumes r.Name = some vol → vol.RefCount = 0 →
      Event.removeAll vol.MountPoint ∈ (d.Remove r os).events ∧
      (∀ err, os.removeAll vol.MountPoint = some err →
        (d.Remove r os).resp
          = errResponse ("error removing volume path \x27" ++ vol.MountPoint ++ "\x27") ∧
        (d.Remove r os).driver = d) ∧
      (os.removeAll vol.MountPoint = none →
        (d.Remove r os).resp = emptyResponse ∧
        (d.Remove r os).driver.RootDir = d.RootDir ∧
        (d.Remove r os).driver.DefaultFS = d.DefaultFS ∧
        (d.Remove r os).driver.Volumes = goMapDelete d.Volumes r.Name ∧
        goMapGet (d.Remove r os).driver.Volumes r.Name = none ∧
        (∀ n, n ≠ r.Name →
          goMapGet (d.Remove r os).driver.Volumes n = goMapGet d.Volumes n))) := by
  constructor
  · intro hnone
    simp [unionMountDriver.Remove, hnone]
  · intro vol hreg h0
    simp only [unionMountDriver.Remove, hreg, h0, if_true]
    cases hrm : os.removeAll vol.MountPoint with
    | some e => simp
    | none =>
      simp only [goMapGet_goMapDelete_same, List.mem_cons, true_or, or_true, true_and,
        false_imp_iff, implies_true, forall_const, reduceCtorEq]
      intro n hn
      exact goMapGet_goMapDelete_other _ _ _ (Ne.symm hn)

/-- Witness of `C13_remove`: an unregistered name, a failing deletion and a
successful deletion. -/
theorem C13_remove_witness :
    goMapGet (sampleDriver 0).Volumes "v9" = none ∧
    ((sampleDriver 0).Remove ⟨"v9", []⟩ okOS).resp
      = errResponse ("volume (" ++ "v9" ++ ") does not exist") ∧
    ((sampleDriver 0).Remove ⟨"v9", []⟩ okOS).driver = sampleDriver 0 ∧
    ((sampleDriver 0).Remove ⟨"v1", []⟩ failingOS).driver = sampleDriver 0 ∧
    goMapGet ((sampleDriver 0).Remove ⟨"v1", []⟩ okOS).driver.Volumes "v1" = none :=
  ⟨by decide,
    ((C13_remove (sampleDriver 0) ⟨"v9", []⟩ okOS).1 (by decide)).1,
    ((C13_remove (sampleDriver 0) ⟨"v9", []⟩ okOS).1 (by decide)).2,
    (((C13_remove (sampleDriver 0) ⟨"v1", []⟩ failingOS).2
      ⟨fsAUFS, ["/a", "/b"], "/r/volumes/v1", 0⟩ (by decide) rfl).2.1 "failed" rfl).2,
    (((C13_remove (sampleDriver 0) ⟨"v1", []⟩ okOS).2
      ⟨fsAUFS, ["/a", "/b"], "/r/volumes/v1", 0⟩ (by decide) rfl).2.2 rfl).2.2.2.2.1⟩

/-! ### Snapshots and the registry lock -/

/-- C14 fails as stated: the first Mount of `v1` and the last Unmount of `v1`
change the registry (the reference count) and spawn no snapshot. -/
theorem C14_counterexample :
    ((sampleDriver 0).Mount ⟨"v1", ""⟩ okOS).driver ≠ sampleDriver 0 ∧
    Event.goSaveState ∉ ((sampleDriver 0).Mount ⟨"v1", ""⟩ okOS).events ∧
    ((sampleDriver 1).Unmount ⟨"v1", ""⟩ okOS).driver ≠ sampleDriver 1 ∧
    Event.goSaveState ∉ ((sampleDriver 1).Unmount ⟨"v1", ""⟩ okOS).events := by
  decide

/-- C14 (amended): a `Create` that adds an entry and a `Remove` that deletes
one spawn a state snapshot after the change, as their last action before
releasing the locks; `Mount` and `Unmount` never spawn a snapshot, although
they change reference counts. -/
theorem C14_snapshot_after_create_remove (d : unionMountDriver) (r : volume.Request)
    (mr : volume.MountRequest) (ur : volume.UnmountRequest) (os : OS) :
    ((d.Create r os).driver ≠ d →
      ∃ pre, (d.Create r os).events = pre ++ [Event.goSaveState, Event.unlockDriver]) ∧
    ((d.Remove r os).driver ≠ d →
      ∃ pre, (d.Remove r os).events
        = pre ++ [Event.goSaveState, Event.unlockVolume r.Name, Event.unlockDriver]) ∧
    Event.goSaveState ∉ (d.Mount mr os).events ∧
    Event.goSaveState ∉ (d.Unmount ur os).events := by
  refine ⟨?_, ?_, ?_, ?_⟩
  · have hrest : ∀ layers fs pre,
        (createWithFilesystem d r os layers fs pre).driver ≠ d →
        ∃ pre2, (createWithFilesystem d r os layers fs pre).events
          = pre2 ++ [Event.goSaveState, Event.unlockDriver] := by
      intro layers fs pre
      apply createWithFilesystem_cases d r os layers fs pre
        (fun o => o.driver ≠ d →
          ∃ pre2, o.events = pre2 ++ [Event.goSaveState, Event.unlockDriver])
      · intro _ h; exact absurd rfl h
      · intro _ _ _ h; exact absurd rfl h
      · intro _ _ _ _ h; exact absurd rfl h
      · intro _ _ _ _ _
        exact ⟨pre ++ [Event.mkdirAll (d.mountPoint r.Name)], by simp⟩
      · intro _ _ _ _ h; exact absurd rfl h
    apply Create_cases d r os
      (fun o => o.driver ≠ d →
        ∃ pre, o.events = pre ++ [Event.goSaveState, Event.unlockDriver])
    · intro _ h; exact absurd rfl h
    · intro _ _ _ h; exact absurd rfl h
    · intro _ _ _ _ _ _ h; exact absurd rfl h
    · intro _ _ _ _ _ _ _ _ _ _ h; exact absurd rfl h
    · intro _ _ _ _ _ _ _ _ _; exact hrest _ _ _
    · intro _ _ _ _ _ _; exact hrest _ _ _
  · unfold unionMountDriver.Remove
    cases hg : goMapGet d.Volumes r.Name with
    | none => intro h; exact absurd rfl h
    | some vol =>
      dsimp only
      by_cases h0 : vol.RefCount = 0
      · rw [if_pos h0]
        cases hrm : os.removeAll vol.MountPoint with
        | some e => intro h; exact absurd rfl h
        | none =>
          intro _
          exact ⟨[Event.lockDriver, Event.lockVolume r.Name,
            Event.removeAll vol.MountPoint], by simp⟩
      · rw [if_neg h0]
        intro h; exact absurd rfl h
  · unfold unionMountDriver.Mount
    cases hg : goMapGet d.Volumes mr.Name with
    | none => simp
    | some vol =>
      dsimp only
      by_cases h0 : vol.RefCount = 0
      · rw [if_pos h0]
        cases hc : mountCmd vol with
        | none => simp
        | some ce =>
          obtain ⟨cmd, e⟩ := ce
          dsimp only
          cases hrun : os.run cmd <;> simp [mountIncrement]
      · rw [if_neg h0]
        simp [mountIncrement]
  · unfold unionMountDriver.Unmount
    cases hg : goMapGet d.Volumes ur.Name with
    | none => simp
    | some vol =>
      dsimp only
      by_cases h1 : vol.RefCount = 1
      · rw [if_pos h1]; simp [unmountDecrement]
      · rw [if_neg h1]
        by_cases h0 : vol.RefCount = 0
        · rw [if_pos h0]; simp
        · rw [if_neg h0]; simp [unmountDecrement]

/-- Witness of `C14_snapshot_after_create_remove`: Create of `v2` and Remove
of `v1` in a registry holding `v1` with reference count 0. -/
theorem C14_snapshot_after_create_remove_witness :
    ((sampleDriver 0).Create ⟨"v2", [("layers", "/a")]⟩ okOS).driver ≠ sampleDriver 0 ∧
    ((sampleDriver 0).Remove ⟨"v1", []⟩ okOS).driver ≠ sampleDriver 0 ∧
    (∃ pre, ((sampleDriver 0).Create ⟨"v2", [("layers", "/a")]⟩ okOS).events
      = pre ++ [Event.goSaveState, Event.unlockDriver]) ∧
    (∃ pre, ((sampleDriver 0).Remove ⟨"v1", []⟩ okOS).events
      = pre ++ [Event.goSaveState, Event.unlockVolume "v1", Event.unlockDriver]) :=
  ⟨by decide, by decide,
    (C14_snapshot_after_create_remove (sampleDriver 0) ⟨"v2", [("layers", "/a")]⟩
      ⟨"v1", ""⟩ ⟨"v1", ""⟩ okOS).1 (by decide),
    (C14_snapshot_after_create_remove (sampleDriver 0) ⟨"v1", []⟩
      ⟨"v1", ""⟩ ⟨"v1", ""⟩ okOS).2.1 (by decide)⟩

theorem underDriverLock_subset (evs : List Event) :
    ∀ held e, e ∈ underDriverLock held evs → e ∈ evs := by
  induction evs with
  | nil => intro held e h; simp [underDriverLock] at h
  | cons x rest ih =>
    intro held e h
    unfold underDriverLock at h
    split_ifs at h with h1 h2 h3
    · exact List.mem_cons_of_mem _ (ih _ _ h)
    · exact List.mem_cons_of_mem _ (ih _ _ h)
    · rcases List.mem_cons.1 h with h | h
      · rw [h]; exact List.mem_cons_self _ _
      · exact List.mem_cons_of_mem _ (ih _ _ h)
    · exact List.mem_cons_of_mem _ (ih _ _ h)

theorem underDriverLock_body (body : List Event)
    (h : ∀ e ∈ body, e ≠ Event.lockDriver ∧ e ≠ Event.unlockDriver ∧ isExec e = false) :
    underDriverLock true (body ++ [Event.unlockDriver]) = body := by
  induction body with
  | nil => simp [underDriverLock]
  | cons x rest ih =>
    obtain ⟨h1, h2, _⟩ := h x (by simp)
    have ih2 := ih (fun e he => h e (by simp [he]))
    simp only [List.cons_append, underDriverLock, h1, h2, if_false, if_true]
    exact congrArg (List.cons x) ih2

theorem lockedThroughout_under (evs body : List Event) (h : lockedThroughout evs body) :
    underDriverLock false evs = body := by
  obtain ⟨hevs, hbody⟩ := h
  rw [hevs]
  simp only [underDriverLock, if_true]
  exact underDriverLock_body body hbody

/-- `Create` holds the registry lock from its first event to its last. -/
theorem Create_lockedThroughout (d : unionMountDriver) (r : volume.Request) (os : OS) :
    ∃ body, lockedThroughout (d.Create r os).events body := by
  have hst : ∀ layers e evs, checkLayers os layers = (e, evs) →
      ∀ x ∈ evs, x ≠ Event.lockDriver ∧ x ≠ Event.unlockDriver ∧ isExec x = false := by
    intro layers e evs h x hx
    have := checkLayers_events os layers x (by rw [h]; exact hx)
    obtain ⟨p, rfl⟩ := this
    simp [isExec]
  have hrest : ∀ layers fs evs,
      (∀ x ∈ evs, x ≠ Event.lockDriver ∧ x ≠ Event.unlockDriver ∧ isExec x = false) →
      ∃ body, lockedThroughout
        (createWithFilesystem d r os layers fs (Event.lockDriver :: evs)).events body := by
    intro layers fs evs hevs
    apply createWithFilesystem_cases d r os layers fs (Event.lockDriver :: evs)
      (fun o => ∃ body, lockedThroughout o.events body)
    · intro _
      exact ⟨evs, by simp, hevs⟩
    · intro _ _ _
      refine ⟨evs ++ [Event.mkdirAll (d.mountPoint r.Name)], by simp, ?_⟩
      intro x hx
      rcases List.mem_append.1 hx with hx | hx
      · exact hevs x hx
      · simp only [List.mem_singleton] at hx
        subst hx
        simp [isExec]
    · intro _ _ _ _
      refine ⟨evs ++ [Event.mkdirAll (d.mountPoint r.Name)], by simp, ?_⟩
      intro x hx
      rcases List.mem_append.1 hx with hx | hx
      · exact hevs x hx
      · simp only [List.mem_singleton] at hx
        subst hx
        simp [isExec]
    · intro _ _ _ _
      refine ⟨evs ++ [Event.mkdirAll (d.mountPoint r.Name), Event.goSaveState],
        by simp, ?_⟩
      intro x hx
      rcases List.mem_append.1 hx with hx | hx
      · exact hevs x hx
      · simp only [List.mem_cons, List.mem_singleton, List.not_mem_nil, or_false] at hx
        rcases hx with hx | hx <;> subst hx <;> simp [isExec]
    · intro _ _ _ _
      refine ⟨evs ++ [Event.mkdirAll (d.mountPoint r.Name)], by simp, ?_⟩
      intro x hx
      rcases List.mem_append.1 hx with hx | hx
      · exact hevs x hx
      · simp only [List.mem_singleton] at hx
        subst hx
        simp [isExec]
  apply Create_cases d r os (fun o => ∃ body, lockedThroughout o.events body)
  · intro _; exact ⟨[], by simp [lockedThroughout]⟩
  · intro _ _ _; exact ⟨[], by simp [lockedThroughout]⟩
  · intro str e evs _ _ hck
    exact ⟨evs, by simp, hst _ _ _ hck⟩
  · intro str evs tok fs e _ _ hck _ _
    exact ⟨evs, by simp, hst _ _ _ hck⟩
  · intro str evs tok fs _ _ hck _ _; exact hrest _ _ _ (hst _ _ _ hck)
  · intro str evs _ _ hck _; exact hrest _ _ _ (hst _ _ _ hck)

/-- `Remove` holds the registry lock from its first event to its last. -/
theorem Remove_lockedThroughout (d : unionMountDriver) (r : volume.Request) (os : OS) :
    ∃ body, lockedThroughout (d.Remove r os).events body := by
  unfold unionMountDriver.Remove
  cases hg : goMapGet d.Volumes r.Name with
  | none => exact ⟨[], by simp [lockedThroughout]⟩
  | some vol =>
    dsimp only
    by_cases h0 : vol.RefCount = 0
    · rw [if_pos h0]
      cases hrm : os.removeAll vol.MountPoint with
      | some e =>
        exact ⟨[Event.lockVolume r.Name, Event.removeAll vol.MountPoint,
          Event.unlockVolume r.Name], by simp [lockedThroughout, isExec]⟩
      | none =>
        exact ⟨[Event.lockVolume r.Name, Event.removeAll vol.MountPoint,
          Event.goSaveState, Event.unlockVolume r.Name], by simp [lockedThroughout, isExec]⟩
    · rw [if_neg h0]
      exact ⟨[Event.lockVolume r.Name, Event.goSaveState, Event.unlockVolume r.Name],
        by simp [lockedThroughout, isExec]⟩

/-- C19 fails as stated: in a `Create` of `v2` the `stat` of the layer and
the creation of the mount-point directory happen while the registry lock is
held, and so does the recursive deletion in a `Remove` of `v1`. -/
theorem C19_counterexample :
    Event.stat "/a"
      ∈ underDriverLock false ((sampleDriver 0).Create ⟨"v2", [("layers", "/a")]⟩ okOS).events ∧
    Event.mkdirAll "/r/volumes/v2"
      ∈ underDriverLock false ((sampleDriver 0).Create ⟨"v2", [("layers", "/a")]⟩ okOS).events ∧
    Event.removeAll "/r/volumes/v1"
      ∈ underDriverLock false ((sampleDriver 0).Remove ⟨"v1", []⟩ okOS).events ∧
    isFilesystemCall (Event.stat "/a") = true ∧
    isFilesystemCall (Event.mkdirAll "/r/volumes/v2") = true ∧
    isFilesystemCall (Event.removeAll "/r/volumes/v1") = true := by
  decide

/-- C19 (amended): in the event trace of every `Create`, `Remove`, `Mount`
and `Unmount` no external process is executed while the registry lock is
held. `Mount` and `Unmount` hold the registry lock only around the map
lookup: no event at all happens while they hold it. `Create` and `Remove`
hold it from their first action to their last, so each of their file-system
calls (stat, directory creation, recursive deletion) happens while it is
held. -/
theorem C19_registry_lock_scope (d : unionMountDriver) (r : volume.Request)
    (mr : volume.MountRequest) (ur : volume.UnmountRequest) (os : OS) :
    (∀ e ∈ underDriverLock false (d.Create r os).events, isExec e = false) ∧
    (∀ e ∈ underDriverLock false (d.Remove r os).events, isExec e = false) ∧
    underDriverLock false (d.Mount mr os).events = [] ∧
    underDriverLock false (d.Unmount ur os).events = [] ∧
    (∀ e ∈ (d.Create r os).events, isFilesystemCall e = true →
      e ∈ underDriverLock false (d.Create r os).events) ∧
    (∀ e ∈ (d.Remove r os).events, isFilesystemCall e = true →
      e ∈ underDriverLock false (d.Remove r os).events) := by
  obtain ⟨bc, hc⟩ := Create_lockedThroughout d r os
  obtain ⟨br, hr⟩ := Remove_lockedThroughout d r os
  have huc := lockedThroughout_under _ _ hc
  have hur := lockedThroughout_under _ _ hr
  refine ⟨?_, ?_, ?_, ?_, ?_, ?_⟩
  · rw [huc]; exact fun e he => (hc.2 e he).2.2
  · rw [hur]; exact fun e he => (hr.2 e he).2.2
  · unfold unionMountDriver.Mount
    cases hg : goMapGet d.Volumes mr.Name with
    | none => simp [underDriverLock]
    | some vol =>
      dsimp only
      by_cases h0 : vol.RefCount = 0
      · rw [if_pos h0]
        cases hcm : mountCmd vol with
        | none => simp [underDriverLock]
        | some ce =>
          obtain ⟨cmd, e⟩ := ce
          dsimp only
          cases hrun : os.run cmd <;> simp [mountIncrement, underDriverLock]
      · rw [if_neg h0]
        simp [mountIncrement, underDriverLock]
  · unfold unionMountDriver.Unmount
    cases hg : goMapGet d.Volumes ur.Name with
    | none => simp [underDriverLock]
    | some vol =>
      dsimp only
      by_cases h1 : vol.RefCount = 1
      · rw [if_pos h1]; simp [unmountDecrement, underDriverLock]
      · rw [if_neg h1]
        by_cases h0 : vol.RefCount = 0
        · rw [if_pos h0]; simp [underDriverLock]
        · rw [if_neg h0]; simp [unmountDecrement, underDriverLock]
  · rw [huc]
    intro e he hfs
    rw [hc.1] at he
    rcases List.mem_cons.1 he with he | he
    · subst he; simp [isFilesystemCall] at hfs
    · rcases List.mem_append.1 he with he | he
      · exact he
      · rw [List.mem_singleton] at he
        subst he; simp [isFilesystemCall] at hfs
  · rw [hur]
    intro e he hfs
    rw [hr.1] at he
    rcases List.mem_cons.1 he with he | he
    · subst he; simp [isFilesystemCall] at hfs
    · rcases List.mem_append.1 he with he | he
      · exact he
      · rw [List.mem_singleton] at he
        subst he; simp [isFilesystemCall] at hfs

/-! ### Frame properties and registry invariants -/

theorem Mount_driver (d : unionMountDriver) (r : volume.MountRequest) (os : OS) :
    unchangedOrRecounted d r.Name (d.Mount r os) := by
  unfold unionMountDriver.Mount
  cases hg : goMapGet d.Volumes r.Name with
  | none => exact Or.inl rfl
  | some vol =>
    dsimp only
    by_cases h0 : vol.RefCount = 0
    · rw [if_pos h0]
      cases hc : mountCmd vol with
      | none => exact Or.inl rfl
      | some ce =>
        obtain ⟨cmd, e⟩ := ce
        dsimp only
        cases hrun : os.run cmd with
        | some msg => exact Or.inl rfl
        | none => exact Or.inr ⟨vol, _, hg, rfl⟩
    · rw [if_neg h0]
      exact Or.inr ⟨vol, _, hg, rfl⟩

theorem Unmount_driver (d : unionMountDriver) (r : volume.UnmountRequest) (os : OS) :
    unchangedOrRecounted d r.Name (d.Unmount r os) := by
  unfold unionMountDriver.Unmount
  cases hg : goMapGet d.Volumes r.Name with
  | none => exact Or.inl rfl
  | some vol =>
    dsimp only
    by_cases h1 : vol.RefCount = 1
    · rw [if_pos h1]
      exact Or.inr ⟨vol, _, hg, rfl⟩
    · rw [if_neg h1]
      by_cases h0 : vol.RefCount = 0
      · rw [if_pos h0]; exact Or.inl rfl
      · rw [if_neg h0]; exact Or.inr ⟨vol, _, hg, rfl⟩

/-- What `Remove` can do to the registry: nothing, or delete the name. -/
theorem Remove_driver (d : unionMountDriver) (r : volume.Request) (os : OS) :
    (d.Remove r os).driver = d ∨
    (d.Remove r os).driver = { d with Volumes := goMapDelete d.Volumes r.Name } := by
  unfold unionMountDriver.Remove
  cases hg : goMapGet d.Volumes r.Name with
  | none => exact Or.inl rfl
  | some vol =>
    dsimp only
    by_cases h0 : vol.RefCount = 0
    · rw [if_pos h0]
      cases hrm : os.removeAll vol.MountPoint with
      | some e => exact Or.inl rfl
      | none => exact Or.inr rfl
    · rw [if_neg h0]; exact Or.inl rfl

/-- What `Create` does to the registry: nothing, or add under a fresh name
the volume the validated request describes, with reference count 0. -/
theorem Create_result (d : unionMountDriver) (r : volume.Request) (os : OS) :
    (d.Create r os).driver = d ∨
    (goMapGet d.Volumes r.Name = none ∧ validationError d r os = none ∧
      (d.Create r os).driver.RootDir = d.RootDir ∧
      (d.Create r os).driver.DefaultFS = d.DefaultFS ∧
      (d.Create r os).driver.Volumes = goMapSet d.Volumes r.Name
        ⟨resolvedKind d r, requestedLayers r, d.mountPoint r.Name, 0⟩) := by
  cases hve : validationError d r os with
  | some e => exact Or.inl ((Create_validation d r os).1 e hve).2.1
  | none =>
    obtain ⟨_, evs, _, ho⟩ := (Create_validation d r os).2 hve
    rw [ho]
    apply createWithFilesystem_cases d r os (requestedLayers r) (resolvedKind d r)
      (Event.lockDriver :: evs)
      (fun o => o.driver = d ∨
        (goMapGet d.Volumes r.Name = none ∧ none = (none : Option String) ∧
          o.driver.RootDir = d.RootDir ∧ o.driver.DefaultFS = d.DefaultFS ∧
          o.driver.Volumes = goMapSet d.Volumes r.Name
            ⟨resolvedKind d r, requestedLayers r, d.mountPoint r.Name, 0⟩))
    · intro _; exact Or.inl rfl
    · intro _ _ _; exact Or.inl rfl
    · intro _ _ _ _; exact Or.inl rfl
    · intro _ _ hg _; exact Or.inr ⟨hg, rfl, rfl, rfl, rfl⟩
    · intro _ _ _ _; exact Or.inl rfl

/-- No request changes the root directory or the default kind. -/
theorem step_config (d : unionMountDriver) (op : Op) (os : OS) :
    (step d op os).driver.RootDir = d.RootDir ∧
    (step d op os).driver.DefaultFS = d.DefaultFS := by
  cases op with
  | Create r =>
    rcases Create_result d r os with h | ⟨_, _, h1, h2, _⟩
    · simp [step, h]
    · exact ⟨h1, h2⟩
  | Remove r => rcases Remove_driver d r os with h | h <;> simp [step, h]
  | Mount r => rcases Mount_driver d r os with h | ⟨_, _, _, h⟩ <;> simp [step, h]
  | Unmount r => rcases Unmount_driver d r os with h | ⟨_, _, _, h⟩ <;> simp [step, h]
  | Path r => simp only [step, unionMountDriver.Path]; split <;> simp
  | Get r => simp only [step, unionMountDriver.Get]; split <;> simp
  | List r => simp [step, unionMountDriver.List]
  | Capabilities r => simp [step, unionMountDriver.Capabilities]

theorem lookup_recounted (m : List (String × unionMountVolume)) (name n : String)
    (vol v1 : unionMountVolume) (c : Nat) (hreg : goMapGet m name = some vol)
    (h : goMapGet (goMapSet m name { vol with RefCount := c }) n = some v1) :
    ∃ v, goMapGet m n = some v ∧ v1.Filesystem = v.Filesystem ∧ v1.Layers = v.Layers ∧
      v1.MountPoint = v.MountPoint := by
  by_cases hn : name = n
  · subst hn
    rw [goMapGet_goMapSet_same] at h
    cases h
    exact ⟨vol, hreg, rfl, rfl, rfl⟩
  · rw [goMapGet_goMapSet_other _ _ _ _ hn] at h
    exact ⟨v1, h, rfl, rfl, rfl⟩

/-- Where a volume registered after a request comes from: it was registered
before with the same kind, layers and mount point, or the request is a
validated `Create` of its name, which was not registered. -/
theorem step_lookup (d : unionMountDriver) (op : Op) (os : OS) (n : String)
    (v1 : unionMountVolume) (h : goMapGet (step d op os).driver.Volumes n = some v1) :
    (∃ v, goMapGet d.Volumes n = some v ∧ v1.Filesystem = v.Filesystem ∧
      v1.Layers = v.Layers ∧ v1.MountPoint = v.MountPoint) ∨
    (goMapGet d.Volumes n = none ∧ ∃ r, op = Op.Create r ∧ r.Name = n ∧
      validationError d r os = none ∧
      v1 = ⟨resolvedKind d r, requestedLayers r, d.mountPoint n, 0⟩) := by
  have same : ∀ o : Outcome, o.driver = d → goMapGet o.driver.Volumes n = some v1 →
      ∃ v, goMapGet d.Volumes n = some v ∧ v1.Filesystem = v.Filesystem ∧
        v1.Layers = v.Layers ∧ v1.MountPoint = v.MountPoint := by
    intro o ho h2
    rw [ho] at h2
    exact ⟨v1, h2, rfl, rfl, rfl⟩
  cases op with
  | Create r =>
    rcases Create_result d r os with hd | ⟨hnone, hve, _, _, hvol⟩
    · exact Or.inl (same _ hd h)
    · simp only [step, hvol] at h
      by_cases hn : r.Name = n
      · subst hn
        rw [goMapGet_goMapSet_same] at h
        cases h
        exact Or.inr ⟨hnone, r, rfl, rfl, hve, rfl⟩
      · rw [goMapGet_goMapSet_other _ _ _ _ hn] at h
        exact Or.inl ⟨v1, h, rfl, rfl, rfl⟩
  | Remove r =>
    rcases Remove_driver d r os with hd | hd
    · exact Or.inl (same _ hd h)
    · simp only [step, hd] at h
      by_cases hn : r.Name = n
      · subst hn
        rw [goMapGet_goMapDelete_same] at h
        cases h
      · rw [goMapGet_goMapDelete_other _ _ _ hn] at h
        exact Or.inl ⟨v1, h, rfl, rfl, rfl⟩
  | Mount r =>
    rcases Mount_driver d r os with hd | ⟨vol, c, hreg, hd⟩
    · exact Or.inl (same _ hd h)
    · simp only [step, hd] at h
      exact Or.inl (lookup_recounted _ _ _ _ _ _ hreg h)
  | Unmount r =>
    rcases Unmount_driver d r os with hd | ⟨vol, c, hreg, hd⟩
    · exact Or.inl (same _ hd h)
    · simp only [step, hd] at h
      exact Or.inl (lookup_recounted _ _ _ _ _ _ hreg h)
  | Path r =>
    refine Or.inl (same _ ?_ h)
    simp only [step, unionMountDriver.Path]; split <;> rfl
  | Get r =>
    refine Or.inl (same _ ?_ h)
    simp only [step, unionMountDriver.Get]; split <;> rfl
  | List r => exact Or.inl (same _ rfl h)
  | Capabilities r => exact Or.inl (same _ rfl h)

/-- C15: across any request, a volume name registered before and after keeps
its layers, filesystem kind and mount point. A `Mount` or `Unmount` of a name
leaves the lookup of every other name, the set of registered names, the root
directory and the default kind as they were, so it changes at most the
reference count of that volume. -/
theorem C15_static_fields_unchanged (d : unionMountDriver) (op : Op) (os : OS) :
    (∀ n v v1, goMapGet d.Volumes n = some v →
      goMapGet (step d op os).driver.Volumes n = some v1 →
      v1.Layers = v.Layers ∧ v1.Filesystem = v.Filesystem ∧ v1.MountPoint = v.MountPoint) ∧
    (∀ name, isMountOrUnmountOf name op = true →
      (∀ n, n ≠ name →
        goMapGet (step d op os).driver.Volumes n = goMapGet d.Volumes n) ∧
      (∀ n, (goMapGet (step d op os).driver.Volumes n).isSome
        = (goMapGet d.Volumes n).isSome) ∧
      (step d op os).driver.RootDir = d.RootDir ∧
      (step d op os).driver.DefaultFS = d.DefaultFS) := by
  constructor
  · intro n v v1 hreg h1
    rcases step_lookup d op os n v1 h1 with ⟨v2, h2, hf, hl, hm⟩ | ⟨hnone, _⟩
    · rw [hreg] at h2
      cases h2
      exact ⟨hl, hf, hm⟩
    · rw [hreg] at hnone
      cases hnone
  · intro name hop
    have key : unchangedOrRecounted d name (step d op os) := by
      cases op with
      | Mount r =>
        have hr : r.Name = name := by simpa [isMountOrUnmountOf] using hop
        subst hr
        exact Mount_driver d r os
      | Unmount r =>
        have hr : r.Name = name := by simpa [isMountOrUnmountOf] using hop
        subst hr
        exact Unmount_driver d r os
      | Create r => simp [isMountOrUnmountOf] at hop
      | Remove r => simp [isMountOrUnmountOf] at hop
      | Path r => simp [isMountOrUnmountOf] at hop
      | Get r => simp [isMountOrUnmountOf] at hop
      | List r => simp [isMountOrUnmountOf] at hop
      | Capabilities r => simp [isMountOrUnmountOf] at hop
    rcases key with hd | ⟨vol, c, hreg, hd⟩
    · rw [hd]
      exact ⟨fun _ _ => rfl, fun _ => rfl, rfl, rfl⟩
    · rw [hd]
      refine ⟨fun n hn => goMapGet_goMapSet_other _ _ _ _ (Ne.symm hn), ?_, rfl, rfl⟩
      intro n
      by_cases hn : name = n
      · subst hn
        simp [goMapGet_goMapSet_same, hreg]
      · simp [goMapGet_goMapSet_other _ _ _ _ hn]

/-- Witness of `C15_static_fields_unchanged`: a Mount of `v1` keeps the layers
of `v1`. -/
theorem C15_static_fields_unchanged_witness :
    goMapGet (sampleDriver 0).Volumes "v1"
      = some ⟨fsAUFS, ["/a", "/b"], "/r/volumes/v1", 0⟩ ∧
    goMapGet (step (sampleDriver 0) (Op.Mount ⟨"v1", ""⟩) okOS).driver.Volumes "v1"
      = some ⟨fsAUFS, ["/a", "/b"], "/r/volumes/v1", 1⟩ ∧
    (⟨fsAUFS, ["/a", "/b"], "/r/volumes/v1", 1⟩ : unionMountVolume).Layers
      = (⟨fsAUFS, ["/a", "/b"], "/r/volumes/v1", 0⟩ : unionMountVolume).Layers :=
  ⟨by decide, by decide,
    ((C15_static_fields_unchanged (sampleDriver 0) (Op.Mount ⟨"v1", ""⟩) okOS).1 "v1"
      ⟨fsAUFS, ["/a", "/b"], "/r/volumes/v1", 0⟩ ⟨fsAUFS, ["/a", "/b"], "/r/volumes/v1", 1⟩
      (by decide) (by decide)).1⟩

/-- A property of the registry that every request preserves holds after
every sequence of requests. -/
theorem run_invariant (Inv : unionMountDriver → Prop)
    (hstep : ∀ d op os, Inv d → Inv (step d op os).driver) (ops : List (Op × OS)) :
    ∀ d, Inv d → Inv (runOps d ops).1 := by
  induction ops with
  | nil => intro d h; simpa [runOps] using h
  | cons p rest ih =>
    intro d h
    obtain ⟨op, os⟩ := p
    simpa [runOps] using ih _ (hstep d op os h)

theorem splitChars_ne_nil (sep : Char) (cs : List Char) : splitChars sep cs ≠ [] := by
  cases cs with
  | nil => simp [splitChars]
  | cons c rest =>
    unfold splitChars
    split_ifs
    · simp
    · split <;> simp

theorem requestedLayers_length_pos (r : volume.Request) (h : layersOptionError r = none) :
    1 ≤ (requestedLayers r).length := by
  unfold layersOptionError at h
  unfold requestedLayers
  cases hL : goMapGet r.Options "layers" with
  | none => rw [hL] at h; cases h
  | some str =>
    simp only [stringsSplit, List.length_map]
    have := splitChars_ne_nil ':' str.data
    cases hs : splitChars ':' str.data with
    | nil => exact absurd hs this
    | cons a b => simp

theorem step_overlaySingleLayer (d : unionMountDriver) (op : Op) (os : OS)
    (h : overlaySingleLayer d) : overlaySingleLayer (step d op os).driver := by
  intro n v1 h1 hov
  rcases step_lookup d op os n v1 h1 with ⟨v, hv, hf, hl, _⟩ | ⟨_, r, _, _, hve, hv1⟩
  · rw [hl]
    exact h n v hv (by rw [← hf]; exact hov)
  · rw [validationError, firstError_eq_none_iff] at hve
    have h1 := requestedLayers_length_pos r (hve _ (by simp))
    have h5 : overlayLayersError d r = none := hve _ (by simp)
    subst hv1
    simp only at hov ⊢
    unfold overlayLayersError at h5
    split_ifs at h5 with hc
    have : ¬ (requestedLayers r).length > 1 := fun hgt => hc ⟨hov, hgt⟩
    omega

/-- C16: in every registry reached from the empty registry, whatever its
default kind, by any sequence of requests under any host outcomes, every
registered Overlay-kind volume has exactly one layer. -/
theorem C16_overlay_single_layer (rootDir : String) (defaultFS : Int)
    (ops : List (Op × OS)) (name : String) (v : unionMountVolume)
    (hreg : goMapGet (runOps (newUnionMountDriver rootDir defaultFS) ops).1.Volumes name
      = some v)
    (hov : v.Filesystem = fsOverlay) : v.Layers.length = 1 := by
  have hinv := run_invariant overlaySingleLayer step_overlaySingleLayer ops
    (newUnionMountDriver rootDir defaultFS)
    (by intro n v hv; simp [newUnionMountDriver, goMapGet] at hv)
  exact hinv name v hreg hov

/-- Witness of `C16_overlay_single_layer`: with Overlay as the default kind,
`o1` is registered with one layer through the filesystem option, and `v2`,
which asks for two layers and takes the default kind, is not registered. -/
theorem C16_overlay_single_layer_witness :
    goMapGet (runOps (newUnionMountDriver "/r" fsOverlay) sampleCreates).1.Volumes "o1"
      = some ⟨fsOverlay, ["/a"], "/r/volumes/o1", 0⟩ ∧
    goMapGet (runOps (newUnionMountDriver "/r" fsOverlay) sampleCreates).1.Volumes "v2"
      = none ∧
    (⟨fsOverlay, ["/a"], "/r/volumes/o1", 0⟩ : unionMountVolume).Layers.length = 1 :=
  ⟨by decide, by decide,
    C16_overlay_single_layer "/r" fsOverlay sampleCreates "o1"
      ⟨fsOverlay, ["/a"], "/r/volumes/o1", 0⟩ (by decide) rfl⟩

theorem step_mountPointsDerived (d : unionMountDriver) (op : Op) (os : OS)
    (h : mountPointsDerived d) : mountPointsDerived (step d op os).driver := by
  intro n v1 h1
  have hroot : (step d op os).driver.mountPoint n = d.mountPoint n := by
    simp [unionMountDriver.mountPoint, (step_config d op os).1]
  rw [hroot]
  rcases step_lookup d op os n v1 h1 with ⟨v, hv, _, _, hm⟩ | ⟨_, r, _, _, _, hv1⟩
  · rw [hm]; exact h n v hv
  · rw [hv1]

theorem run_rootDir (ops : List (Op × OS)) :
    ∀ d, (runOps d ops).1.RootDir = d.RootDir := by
  induction ops with
  | nil => intro d; simp [runOps]
  | cons p rest ih =>
    intro d
    obtain ⟨op, os⟩ := p
    simp only [runOps]
    rw [ih, (step_config d op os).1]

/-- C17: in every registry reached from the empty registry under the root
directory `rootDir` by any sequence of requests, every registered name has
as stored mount point the path derived from the root directory and the name,
`Join(rootDir, "volumes", name)`, the value of `mountPoint(name)`; `Path` and
`Get` on the name return exactly that path. -/
theorem C17_mount_point_derived (rootDir : String) (defaultFS : Int)
    (ops : List (Op × OS)) (name : String) (v : unionMountVolume)
    (opts : List (String × String))
    (hreg : goMapGet (runOps (newUnionMountDriver rootDir defaultFS) ops).1.Volumes name
      = some v) :
    v.MountPoint = filepathJoin [rootDir, "volumes", name] ∧
    v.MountPoint = (runOps (newUnionMountDriver rootDir defaultFS) ops).1.mountPoint name ∧
    ((runOps (newUnionMountDriver rootDir defaultFS) ops).1.Path ⟨name, opts⟩).resp
      = mountpointResponse (filepathJoin [rootDir, "volumes", name]) ∧
    ((runOps (newUnionMountDriver rootDir defaultFS) ops).1.Get ⟨name, opts⟩).resp
      = ⟨"", "", [], some ⟨name, filepathJoin [rootDir, "volumes", name]⟩, ⟨""⟩⟩ := by
  have hinv := run_invariant mountPointsDerived step_mountPointsDerived ops
    (newUnionMountDriver rootDir defaultFS)
    (by intro n v hv; simp [newUnionMountDriver, goMapGet] at hv)
  have hmp := hinv name v hreg
  have hroot := run_rootDir ops (newUnionMountDriver rootDir defaultFS)
  have hj : (runOps (newUnionMountDriver rootDir defaultFS) ops).1.mountPoint name
      = filepathJoin [rootDir, "volumes", name] := by
    unfold unionMountDriver.mountPoint
    rw [hroot]
    rfl
  rw [hj] at hmp
  refine ⟨hmp, by rw [hj]; exact hmp, ?_, ?_⟩
  · simp [unionMountDriver.Path, hreg, hmp]
  · simp [unionMountDriver.Get, hreg, hmp]

/-- Witness of `C17_mount_point_derived`: after the Create of `o1` under
`/r` the mount point of `o1` is `/r/volumes/o1`. -/
theorem C17_mount_point_derived_witness :
    goMapGet (runOps (newUnionMountDriver "/r" fsOverlay) sampleCreates).1.Volumes "o1"
      = some ⟨fsOverlay, ["/a"], "/r/volumes/o1", 0⟩ ∧
    filepathJoin ["/r", "volumes", "o1"] = "/r/volumes/o1" ∧
    ((runOps (newUnionMountDriver "/r" fsOverlay) sampleCreates).1.Path ⟨"o1", []⟩).resp
      = mountpointResponse (filepathJoin ["/r", "volumes", "o1"]) :=
  ⟨by decide, by decide,
    (C17_mount_point_derived "/r" fsOverlay sampleCreates "o1"
      ⟨fsOverlay, ["/a"], "/r/volumes/o1", 0⟩ [] (by decide)).2.2.1⟩

/-! ### Start-up -/

/-- C18: whenever `loadState` fails, because the state file cannot be opened
or its content cannot be decoded, `main` goes on to serve a fresh driver:
empty volume map, the configured root directory, and as default kind the
kind the configured token resolves to (AUFS when the token does not
resolve). -/
theorem C18_restore_fallback (rootDir defaultFS : String) (readState : String → StateFile)
    (hfail : (loadState rootDir readState).2 ≠ none) :
    (main rootDir defaultFS readState).served
      = some (newUnionMountDriver rootDir (fsFromString defaultFS).1) ∧
    (newUnionMountDriver rootDir (fsFromString defaultFS).1).Volumes = [] ∧
    (newUnionMountDriver rootDir (fsFromString defaultFS).1).RootDir = rootDir ∧
    (∀ kind, fsFromString defaultFS = (kind, none) →
      (newUnionMountDriver rootDir (fsFromString defaultFS).1).DefaultFS = kind) ∧
    ((fsFromString defaultFS).2 ≠ none →
      (newUnionMountDriver rootDir (fsFromString defaultFS).1).DefaultFS = fsAUFS) := by
  refine ⟨?_, rfl, rfl, ?_, ?_⟩
  · unfold main
    rcases hl : loadState rootDir readState with ⟨d, e⟩
    cases e with
    | none => rw [hl] at hfail; exact absurd rfl hfail
    | some err => rfl
  · intro kind hk
    simp [newUnionMountDriver, hk]
  · intro hne
    simp only [newUnionMountDriver]
    unfold fsFromString at hne ⊢
    by_cases h1 : stringsToLower defaultFS = "aufs"
    · simp [h1]
    · by_cases h2 : stringsToLower defaultFS = "overlay" ∨ stringsToLower defaultFS = "overlayfs"
      · simp [h1, h2] at hne
      · simp [h1, h2]

/-- Witness of `C18_restore_fallback`: a missing state file and a state file
that does not decode, with the root `/r` and the token `overlay`. -/
theorem C18_restore_fallback_witness :
    (loadState "/r" noStateFile).2 ≠ none ∧
    (loadState "/r" corruptStateFile).2 ≠ none ∧
    (main "/r" "overlay" noStateFile).served = some ⟨"/r", fsOverlay, [], false⟩ ∧
    (main "/r" "overlay" corruptStateFile).served = some ⟨"/r", fsOverlay, [], false⟩ :=
  ⟨by decide, by decide,
    (C18_restore_fallback "/r" "overlay" noStateFile (by decide)).1,
    (C18_restore_fallback "/r" "overlay" corruptStateFile (by decide)).1⟩

/-! ### Mount-point paths -/

theorem splitChars_append (sep : Char) (a b : List Char) :
    splitChars sep (a ++ sep :: b) = splitChars sep a ++ splitChars sep b := by
  induction a with
  | nil => simp [splitChars]
  | cons c rest ih =>
    by_cases hc : c = sep
    · simp [splitChars, hc, ih]
    · cases hs : splitChars sep rest with
      | nil => exact absurd hs (splitChars_ne_nil sep rest)
      | cons w ws =>
        rw [hs] at ih
        simp [splitChars, hc, ih, hs]

theorem stringsSplit_append (a b : String) :
    stringsSplit (a ++ "/" ++ b) '/' = stringsSplit a '/' ++ stringsSplit b '/' := by
  have h : (a ++ "/" ++ b).data = a.data ++ '/' :: b.data := by
    simp [String.data_append]
  simp [stringsSplit, h, splitChars_append]

theorem cleanElems_eq_reverse (rooted : Bool) (es : List String) :
    ∀ stack, cleanElems rooted stack es = (cleanStack rooted stack es).reverse := by
  induction es with
  | nil => intro stack; simp [cleanElems, cleanStack]
  | cons e rest ih =>
    intro stack
    by_cases h1 : e = "" ∨ e = "."
    · simp [cleanElems, cleanStack, h1, ih]
    · by_cases h2 : e = ".."
      · cases stack with
        | nil => cases rooted <;> simp [cleanElems, cleanStack, h2, ih]
        | cons top below =>
          by_cases h3 : top = ".." <;> simp [cleanElems, cleanStack, h2, h3, ih]
      · simp [cleanElems, cleanStack, h1, h2, ih]

theorem cleanStack_append (rooted : Bool) (xs ys : List String) :
    ∀ stack, cleanStack rooted stack (xs ++ ys)
      = cleanStack rooted (cleanStack rooted stack xs) ys := by
  induction xs with
  | nil => intro stack; simp [cleanStack]
  | cons e rest ih =>
    intro stack
    by_cases h1 : e = "" ∨ e = "."
    · simp [cleanStack, h1, ih]
    · by_cases h2 : e = ".."
      · cases stack with
        | nil => cases rooted <;> simp [cleanStack, h2, ih]
        | cons top below =>
          by_cases h3 : top = ".." <;> simp [cleanStack, h2, h3, ih]
      · simp [cleanStack, h1, h2, ih]

theorem cleanStack_plain (rooted : Bool) (ys : List String) (h : ".." ∉ ys) :
    ∀ stack, cleanStack rooted stack ys
      = (ys.filter (fun e => decide (¬ (e = "" ∨ e = ".")))).reverse ++ stack := by
  induction ys with
  | nil => intro stack; simp [cleanStack]
  | cons e rest ih =>
    intro stack
    have hrest : ".." ∉ rest := fun hm => h (List.mem_cons_of_mem _ hm)
    have he : e ≠ ".." := fun heq => h (by simp [heq])
    by_cases h1 : e = "" ∨ e = "."
    · have h1n : ¬ (¬ e = "" ∧ ¬ e = ".") := by tauto
      simp [cleanStack, h1, ih hrest, List.filter_cons, h1n]
    · have h1n : ¬ e = "" ∧ ¬ e = "." := by tauto
      simp [cleanStack, h1, he, ih hrest, List.filter_cons, h1n]

theorem stringsJoin_append (a b : List String) (sep : String) (ha : a ≠ []) (hb : b ≠ []) :
    stringsJoin (a ++ b) sep = stringsJoin a sep ++ sep ++ stringsJoin b sep := by
  induction a with
  | nil => exact absurd rfl ha
  | cons x rest ih =>
    cases rest with
    | nil =>
      cases b with
      | nil => exact absurd rfl hb
      | cons y ys => simp [stringsJoin]
    | cons x2 rest2 =>
      have := ih (by simp)
      simp only [List.cons_append] at this ⊢
      simp only [stringsJoin, this, String.append_assoc]

theorem stringsJoin_ne_empty (l : List String) (sep : String) (hl : l ≠ [])
    (h : ∀ e ∈ l, e ≠ "") : stringsJoin l sep ≠ "" := by
  cases l with
  | nil => exact absurd rfl hl
  | cons x rest =>
    have hx : x ≠ "" := h x (by simp)
    have hxd : x.data ≠ [] := fun hd => hx (String.ext hd)
    intro hj
    have hd := congrArg String.data hj
    cases rest with
    | nil => simp [stringsJoin] at hd; exact hxd hd
    | cons y ys =>
      simp [stringsJoin, String.data_append] at hd
      exact hxd hd.1

theorem stringsJoin_snoc_ne_empty (a : List String) (x sep : String) (hx : x ≠ "") :
    stringsJoin (a ++ [x]) sep ≠ "" := by
  have hxd : x.data ≠ [] := fun hd => hx (String.ext hd)
  cases a with
  | nil => simpa [stringsJoin] using hx
  | cons y ys =>
    rw [stringsJoin_append (y :: ys) [x] sep (by simp) (by simp)]
    intro hj
    have hd := congrArg String.data hj
    simp [stringsJoin, String.data_append] at hd
    exact hxd hd.2.2

theorem filepathIsAbs_append (p q : String) (hp : p ≠ "") :
    filepathIsAbs (p ++ q) = filepathIsAbs p := by
  have hpd : p.data ≠ [] := fun hd => hp (String.ext hd)
  unfold filepathIsAbs
  cases hd : p.data with
  | nil => exact absurd hd hpd
  | cons c cs => simp [String.data_append, hd]

/-- Cleaning a path that ends in the element `volumes`, extended by a name
without `..` elements, appends the plain elements of the name. -/
theorem filepathClean_extend (p name : String) (xs : List String)
    (hp : stringsSplit p '/' = xs ++ ["volumes"]) (hpne : p ≠ "")
    (h1 : ".." ∉ stringsSplit name '/') (h2 : plainElems name ≠ []) :
    filepathClean (p ++ "/" ++ name)
      = filepathClean p ++ "/" ++ stringsJoin (plainElems name) "/" := by
  have hpd : p.data ≠ [] := fun hd => hpne (String.ext hd)
  have hne : p ++ "/" ++ name ≠ "" := by
    intro h
    have hd := congrArg String.data h
    simp [String.data_append] at hd
  have habs : filepathIsAbs (p ++ "/" ++ name) = filepathIsAbs p := by
    rw [String.append_assoc]
    exact filepathIsAbs_append p _ hpne
  have hbase : ∀ rooted, cleanElems rooted [] (stringsSplit p '/')
      = (cleanStack rooted [] xs).reverse ++ ["volumes"] := by
    intro rooted
    rw [cleanElems_eq_reverse, hp, cleanStack_append]
    simp [cleanStack]
  have hfull : ∀ rooted, cleanElems rooted [] (stringsSplit (p ++ "/" ++ name) '/')
      = cleanElems rooted [] (stringsSplit p '/') ++ plainElems name := by
    intro rooted
    rw [cleanElems_eq_reverse, cleanElems_eq_reverse, stringsSplit_append,
      cleanStack_append, cleanStack_plain rooted _ h1]
    simp [plainElems]
  have hjoin : ∀ rooted,
      stringsJoin (cleanElems rooted [] (stringsSplit (p ++ "/" ++ name) '/')) "/"
        = stringsJoin (cleanElems rooted [] (stringsSplit p '/')) "/" ++ "/"
          ++ stringsJoin (plainElems name) "/" := by
    intro rooted
    rw [hfull]
    exact stringsJoin_append _ _ _ (by rw [hbase]; simp) h2
  have hbne : ∀ rooted,
      stringsJoin (cleanElems rooted [] (stringsSplit p '/')) "/" ≠ "" := by
    intro rooted
    rw [hbase]
    exact stringsJoin_snoc_ne_empty _ _ _ (by decide)
  have hfne : ∀ rooted,
      stringsJoin (cleanElems rooted [] (stringsSplit (p ++ "/" ++ name) '/')) "/" ≠ "" := by
    intro rooted
    rw [hjoin]
    intro h
    have hd := congrArg String.data h
    simp [String.data_append] at hd
  unfold filepathClean
  simp only [hne, hpne, if_false, habs]
  cases hr : filepathIsAbs p with
  | true =>
    rw [if_pos rfl, if_pos rfl, hjoin]
    simp only [String.append_assoc]
  | false =>
    have hff : ¬ (false = true) := by decide
    rw [if_neg hff, if_neg hff, if_neg (hfne false), if_neg (hbne false), hjoin]

/-- C20 fails as stated: under the root `/r`, the empty name has the mount
point `/r/volumes` itself, the name `..` has `/r` and the name `../../etc`
has `/etc`; none lies strictly inside `/r/volumes`. `Create` accepts the name
`..` and makes the directory `/r`, and `Remove` of it then deletes `/r`
recursively. -/
theorem C20_counterexample :
    (newUnionMountDriver "/r" fsAUFS).mountPoint "" = "/r/volumes" ∧
    (newUnionMountDriver "/r" fsAUFS).mountPoint ".." = "/r" ∧
    (newUnionMountDriver "/r" fsAUFS).mountPoint "../../etc" = "/etc" ∧
    strictlyInside "/r/volumes" ((newUnionMountDriver "/r" fsAUFS).mountPoint "") = false ∧
    strictlyInside "/r/volumes" ((newUnionMountDriver "/r" fsAUFS).mountPoint "..") = false ∧
    strictlyInside "/r/volumes"
      ((newUnionMountDriver "/r" fsAUFS).mountPoint "../../etc") = false ∧
    ((newUnionMountDriver "/r" fsAUFS).Create ⟨"..", [("layers", "/a")]⟩ okOS).resp
      = emptyResponse ∧
    Event.mkdirAll "/r"
      ∈ ((newUnionMountDriver "/r" fsAUFS).Create ⟨"..", [("layers", "/a")]⟩ okOS).events ∧
    Event.removeAll "/r"
      ∈ (((newUnionMountDriver "/r" fsAUFS).Create ⟨"..", [("layers", "/a")]⟩ okOS).driver.Remove
          ⟨"..", []⟩ okOS).events := by
  decide

/-- C20 (amended): for every root directory and every volume name that has
no `..` path element and has at least one path element other than the empty
one and `.`, the directory that `Create` makes and `Remove` deletes,
`mountPoint(name)`, is the cleaned `Join(rootDir, "volumes")` followed by a
slash and the plain elements of the name joined by slashes; it lies strictly
inside that directory. -/
theorem C20_mount_point_inside (d : unionMountDriver) (name : String)
    (h1 : ".." ∉ stringsSplit name '/') (h2 : plainElems name ≠ []) :
    d.mountPoint name = filepathJoin [d.RootDir, "volumes"] ++ "/"
      ++ stringsJoin (plainElems name) "/" ∧
    strictlyInside (filepathJoin [d.RootDir, "volumes"]) (d.mountPoint name) = true := by
  have hplain : ∀ e ∈ plainElems name, e ≠ "" := by
    intro e he
    have := (List.mem_filter.1 he).2
    simp only [decide_eq_true_eq] at this
    exact fun h => this (Or.inl h)
  have hj := stringsJoin_ne_empty (plainElems name) "/" h2 hplain
  have hjd : (stringsJoin (plainElems name) "/").data ≠ [] := fun hd => hj (String.ext hd)
  have heq : d.mountPoint name = filepathJoin [d.RootDir, "volumes"] ++ "/"
      ++ stringsJoin (plainElems name) "/" := by
    unfold unionMountDriver.mountPoint
    by_cases hr : d.RootDir = ""
    · have hv : filepathJoin ["", "volumes", name]
          = filepathClean ("volumes" ++ "/" ++ name) := by
        unfold filepathJoin
        rw [if_pos rfl]
        unfold filepathJoin
        rw [if_neg (by decide)]
        rfl
      have hb : filepathJoin ["", "volumes"] = filepathClean "volumes" := by
        unfold filepathJoin
        rw [if_pos rfl]
        unfold filepathJoin
        rw [if_neg (by decide)]
        rfl
      rw [hr, hv, hb]
      exact filepathClean_extend "volumes" name [] (by decide) (by decide) h1 h2
    · have hv : filepathJoin [d.RootDir, "volumes", name]
          = filepathClean (d.RootDir ++ "/" ++ "volumes" ++ "/" ++ name) := by
        unfold filepathJoin
        rw [if_neg hr]
        simp only [stringsJoin, String.append_assoc]
      have hb : filepathJoin [d.RootDir, "volumes"]
          = filepathClean (d.RootDir ++ "/" ++ "volumes") := by
        unfold filepathJoin
        rw [if_neg hr]
        rfl
      rw [hv, hb]
      refine filepathClean_extend (d.RootDir ++ "/" ++ "volumes") name
        (stringsSplit d.RootDir '/') ?_ ?_ h1 h2
      · rw [stringsSplit_append]
        have : stringsSplit "volumes" '/' = ["volumes"] := by decide
        rw [this]
      · intro h
        have hd := congrArg String.data h
        simp [String.data_append] at hd
  refine ⟨heq, ?_⟩
  rw [heq]
  unfold strictlyInside
  simp only [String.data_append, Bool.and_eq_true, decide_eq_true_eq, List.length_append]
  constructor
  · rw [List.isPrefixOf_iff_prefix]
    exact List.prefix_append _ _
  · have : 0 < (stringsJoin (plainElems name) "/").data.length :=
      List.length_pos.2 hjd
    have h3 : (['/'] : List Char).length = 1 := rfl
    omega

/-- Witness of `C20_mount_point_inside`: the names `v1` and `a/./b`. -/
theorem C20_mount_point_inside_witness :
    ".." ∉ stringsSplit "v1" '/' ∧ plainElems "v1" ≠ [] ∧
    ".." ∉ stringsSplit "a/./b" '/' ∧ plainElems "a/./b" ≠ [] ∧
    strictlyInside (filepathJoin ["/r", "volumes"]) ((sampleDriver 0).mountPoint "v1") = true ∧
    (sampleDriver 0).mountPoint "a/./b"
      = filepathJoin ["/r", "volumes"] ++ "/" ++ stringsJoin (plainElems "a/./b") "/" :=
  ⟨by decide, by decide, by decide, by decide,
    (C20_mount_point_inside (sampleDriver 0) "v1" (by decide) (by decide)).2,
    (C20_mount_point_inside (sampleDriver 0) "a/./b" (by decide) (by decide)).1⟩

end UnionMount
